import Mathlib

/-!
Verification development for the truck_load_fork_control repository.

Modelling conventions:
* C++ `double` values are idealised as exact rationals (`ℚ`); decimal
  constants such as `0.02` or `5e-4` are written as exact fractions
  (`mkRat 2 100`, `mkRat 5 10000`).  The arithmetic of the sources is
  written with the executable operations `qadd`, `qsub`, `qmul`, `qdiv`,
  `qmin`, `qmax`, `qabs` below, which are proved equal to the field
  operations of `ℚ` (`qadd_eq` etc.) and evaluate on concrete inputs.
* IEEE non-finite values (NaN, ±inf) cannot live in `ℚ`; every numeric
  input field therefore carries a separate finiteness flag (`FinFlags`),
  and `finiteAll` is the conjunction of those flags, mirroring the
  `std::isfinite` checks of the sources.  Comparisons guarded by
  `isfinite` in the sources are modelled as conjunctions with the flag.
* `std::cos` / `std::sin` are library functions outside the repository;
  they are treated as an abstract parameter `TrigModel`.  All concrete
  scenarios below use total angle 0, where any faithful model satisfies
  cos 0 = 1 and sin 0 = 0 (the concrete model `trigAtZero`).
-/

namespace TLF

/-- `std::min` on exact rationals: `b` when `b < a`, else `a`. -/
def qmin (a b : ℚ) : ℚ := if b < a then b else a

/-- `std::max` on exact rationals: `b` when `a < b`, else `a`. -/
def qmax (a b : ℚ) : ℚ := if a < b then b else a

/-- `std::abs` on exact rationals. -/
def qabs (a : ℚ) : ℚ := if a < 0 then -a else a

/-- Negation, built from the kernel-computable `mkRat`. -/
def qneg (a : ℚ) : ℚ := mkRat (-a.num) a.den

/-- Addition, built from the kernel-computable `mkRat`. -/
def qadd (a b : ℚ) : ℚ := mkRat (a.num * (b.den : ℤ) + b.num * (a.den : ℤ)) (a.den * b.den)

/-- Subtraction, built from the kernel-computable `mkRat`. -/
def qsub (a b : ℚ) : ℚ := mkRat (a.num * (b.den : ℤ) - b.num * (a.den : ℤ)) (a.den * b.den)

/-- Multiplication, built from the kernel-computable `mkRat`. -/
def qmul (a b : ℚ) : ℚ := mkRat (a.num * b.num) (a.den * b.den)

/-- Inverse, built from the kernel-computable `mkRat` (0 maps to 0, like
`Rat.inv`; the sources never divide by zero on the paths studied here). -/
def qinv (a : ℚ) : ℚ :=
  if 0 < a.num then mkRat (a.den : ℤ) a.num.toNat
  else if a.num = 0 then 0
  else qneg (mkRat (a.den : ℤ) (-a.num).toNat)

/-- Division. -/
def qdiv (a b : ℚ) : ℚ := qmul a (qinv b)

/-- 2D vector in the x-z side view (`include/model/Math2D.hpp`). -/
structure Vec2 where
  x : ℚ
  z : ℚ
deriving DecidableEq

/-- Vector addition (`operator+` in Math2D.hpp). -/
def Vec2.add (a b : Vec2) : Vec2 := ⟨qadd a.x b.x, qadd a.z b.z⟩

/-- Rotation in the x-z plane, stored as (cos, sin) (`Rot2` in Math2D.hpp). -/
structure Rot2 where
  c : ℚ
  s : ℚ

/-- `Rot2::apply` from Math2D.hpp: (c·x − s·z, s·x + c·z). -/
def Rot2.apply (R : Rot2) (v : Vec2) : Vec2 :=
  ⟨qsub (qmul R.c v.x) (qmul R.s v.z), qadd (qmul R.s v.x) (qmul R.c v.z)⟩

/-- Abstract model of the `std::cos` / `std::sin` library functions used by
`Rot2::fromRad`; the development is parametric in it. -/
structure TrigModel where
  cosQ : ℚ → ℚ
  sinQ : ℚ → ℚ

/-- `Rot2::fromRad` from Math2D.hpp, relative to a trig model. -/
def Rot2.fromRad (T : TrigModel) (rad : ℚ) : Rot2 := ⟨T.cosQ rad, T.sinQ rad⟩

/-- A trig model pinned only at angle 0: cos 0 = 1, sin 0 = 0.  Every
concrete scenario in this file keeps pitch + tilt = 0, where the real
cos/sin take exactly these values. -/
def trigAtZero : TrigModel := ⟨fun _ => 1, fun _ => 0⟩

/-- Plane ax + by + cz + d = 0 (`Plane` in model/Geometry.hpp).  The C++
`valid()` also checks `isfinite` on a,b,c,d, which is vacuous in `ℚ`. -/
structure Plane where
  a : ℚ
  b : ℚ
  c : ℚ
  d : ℚ
deriving DecidableEq

/-- `Plane::valid` (finiteness is vacuous here; the |c| > 1e-9 test remains). -/
def Plane.valid (p : Plane) : Bool := decide (qabs p.c > mkRat 1 1000000000)

/-- `Plane::zAtX` (evaluated at y = 0): −(a·x + d)/c. -/
def Plane.zAtX (p : Plane) (x : ℚ) : ℚ := qdiv (qneg (qadd (qmul p.a x) p.d)) p.c

/-- Corner identifiers in the fixed order of `CornerId` in model/Geometry.hpp. -/
inductive CornerId : Type where
  | RearBottom
  | RearTop
  | FrontBottom
  | FrontTop
deriving DecidableEq

/-- The 4 corner points, fields in the array order RearBottom, RearTop,
FrontBottom, FrontTop (`CornerPoints2D`). -/
structure CornerPoints2D where
  rb : Vec2
  rt : Vec2
  fb : Vec2
  ft : Vec2
deriving DecidableEq

/-- `RackParams` from model/Geometry.hpp (defaults 2.3, 2.3, (0.2, 0)). -/
structure RackParams where
  height_m : ℚ := mkRat 23 10
  length_m : ℚ := mkRat 23 10
  mount_offset_m : Vec2 := ⟨mkRat 2 10, 0⟩
deriving DecidableEq

/-- `ForkliftParams` from model/Geometry.hpp. -/
structure ForkliftParams where
  mast_pivot_height_m : ℚ := 0
deriving DecidableEq

/-- `EnvironmentGeometry` from model/Geometry.hpp: optional constants,
optional planes, optional position-dependent callbacks. -/
structure EnvironmentGeometry where
  ceiling_z_m : Option ℚ := none
  floor_z_m : Option ℚ := none
  ceiling_plane : Option Plane := none
  floor_plane : Option Plane := none
  ceiling_z_at_x_m : Option (ℚ → ℚ) := none
  floor_z_at_x_m : Option (ℚ → ℚ) := none

/-- `envCeilingZAtX` from src/Geometry.cpp: callback, else valid plane,
else constant, else the built-in default 10.0. -/
def envCeilingZAtX (env : EnvironmentGeometry) (x : ℚ) : ℚ :=
  match env.ceiling_z_at_x_m with
  | some f => f x
  | none =>
    match env.ceiling_plane with
    | some p => if p.valid then p.zAtX x else env.ceiling_z_m.getD 10
    | none => env.ceiling_z_m.getD 10

/-- `envFloorZAtX` from src/Geometry.cpp (default floor 0.0). -/
def envFloorZAtX (env : EnvironmentGeometry) (x : ℚ) : ℚ :=
  match env.floor_z_at_x_m with
  | some f => f x
  | none =>
    match env.floor_plane with
    | some p => if p.valid then p.zAtX x else env.floor_z_m.getD 0
    | none => env.floor_z_m.getD 0

/-- `computeRackCorners2D` from src/Geometry.cpp. -/
def computeRackCorners2D (T : TrigModel) (s_m lift_m pitch_rad tilt_rad : ℚ)
    (env : EnvironmentGeometry) (rack : RackParams) (forklift : ForkliftParams) :
    CornerPoints2D :=
  let theta := qadd pitch_rad tilt_rad
  let R := Rot2.fromRad T theta
  let base_z := qadd (envFloorZAtX env s_m) forklift.mast_pivot_height_m
  let mast_base : Vec2 := ⟨s_m, base_z⟩
  let pivot_world := mast_base.add (R.apply ⟨0, lift_m⟩)
  let rb := pivot_world.add (R.apply rack.mount_offset_m)
  let rt := rb.add (R.apply ⟨0, rack.height_m⟩)
  let fb := rb.add (R.apply ⟨rack.length_m, 0⟩)
  let ft := rb.add (R.apply ⟨rack.length_m, rack.height_m⟩)
  ⟨rb, rt, fb, ft⟩

/-- `ClearanceResult`; src/Geometry.cpp populates the per-group worst ids
as well as the overall one. -/
structure ClearanceResult where
  clearance_top_m : ℚ
  clearance_bottom_m : ℚ
  top_worst_point : CornerId
  bottom_worst_point : CornerId
  worst_point : CornerId
deriving DecidableEq

/-- `computeClearances` from src/Geometry.cpp.  The C++ loops initialise the
candidate with +infinity and update on strict `<`; over the two top corners
{RearTop, FrontTop} (resp. bottom corners {RearBottom, FrontBottom}) this is
exactly: the second corner wins only when strictly smaller. -/
def computeClearances (corners : CornerPoints2D) (env : EnvironmentGeometry)
    (margin_top_m margin_bottom_m : ℚ) : ClearanceResult :=
  let cRT := qsub (envCeilingZAtX env corners.rt.x) corners.rt.z
  let cFT := qsub (envCeilingZAtX env corners.ft.x) corners.ft.z
  let topWorstId := if cFT < cRT then CornerId.FrontTop else CornerId.RearTop
  let topWorstVal := qmin cRT cFT
  let cRB := qsub corners.rb.z (envFloorZAtX env corners.rb.x)
  let cFB := qsub corners.fb.z (envFloorZAtX env corners.fb.x)
  let botWorstId := if cFB < cRB then CornerId.FrontBottom else CornerId.RearBottom
  let botWorstVal := qmin cRB cFB
  let clearance_top_m := qsub topWorstVal margin_top_m
  let clearance_bottom_m := qsub botWorstVal margin_bottom_m
  let worst := if clearance_top_m < clearance_bottom_m then topWorstId else botWorstId
  ⟨clearance_top_m, clearance_bottom_m, topWorstId, botWorstId, worst⟩

/-- `TerrainState` from controller/Types.hpp (diagnostic only). -/
inductive TerrainState : Type where
  | Ground
  | FrontOnRamp
  | OnRamp
  | FrontInContainerRearOnRamp
  | InContainer
deriving DecidableEq

/-- `SafetyLevel` from controller/Types.hpp. -/
inductive SafetyLevel : Type where
  | OK
  | WARN
  | STOP
  | DEGRADED
deriving DecidableEq

/-- `SafetyCode` from controller/Types.hpp. -/
inductive SafetyCode : Type where
  | None
  | ClearanceHardViolated
  | ClearanceSoftNear
  | InputInvalid
  | PitchJitter
  | NoFeasibleSolution
deriving DecidableEq

/-- Finiteness flags for the ten `double` input fields checked by
`finiteAll` in the sources; `true` means the IEEE value is finite. -/
structure FinFlags where
  dt_s : Bool := true
  pitch_rad : Bool := true
  pitch_rate_rad_s : Bool := true
  s_m : Bool := true
  lift_pos_m : Bool := true
  tilt_rad : Bool := true
  rack_height : Bool := true
  rack_length : Bool := true
  mount_x : Bool := true
  mount_z : Bool := true
deriving DecidableEq

/-- `ControlInput` from controller/Types.hpp, plus the finiteness flags of
the modelling convention. -/
structure ControlInput where
  dt_s : ℚ := mkRat 2 100
  pitch_rad : ℚ := 0
  pitch_rate_rad_s : ℚ := 0
  s_m : ℚ := 0
  terrain : TerrainState := TerrainState.Ground
  lift_pos_m : ℚ := 0
  tilt_rad : ℚ := 0
  env : EnvironmentGeometry := {}
  rack : RackParams := {}
  forklift : ForkliftParams := {}
  inputs_valid : Bool := true
  fin : FinFlags := {}

/-- `ControlCommand` from controller/Types.hpp. -/
structure ControlCommand where
  lift_target_m : ℚ := 0
  lift_rate_limit_m_s : ℚ := mkRat 2 10
  tilt_target_rad : ℚ := 0
  tilt_rate_limit_rad_s : ℚ := mkRat 4 10
  speed_limit_m_s : ℚ := 1
deriving DecidableEq

/-- `SafetyStatus` from controller/Types.hpp. -/
structure SafetyStatus where
  level : SafetyLevel := SafetyLevel.OK
  code : SafetyCode := SafetyCode.None
  message : String := ""
  clearance_top_m : ℚ := 0
  clearance_bottom_m : ℚ := 0
  worst_point : CornerId := CornerId.RearBottom
deriving DecidableEq

/-- `DebugFrame` from controller/Types.hpp. -/
structure DebugFrame where
  time_s : ℚ := 0
  inp : ControlInput := {}
  cmd : ControlCommand := {}
  safety : SafetyStatus := {}
  corners : CornerPoints2D := ⟨⟨0, 0⟩, ⟨0, 0⟩, ⟨0, 0⟩, ⟨0, 0⟩⟩
  selected_cost : ℚ := 0
  had_feasible_solution : Bool := false

/-- `ControllerConfig` from controller/Types.hpp.  The grid-step and MPC
count fields are C++ `int`; they are modelled as `ℕ` (the sources clamp
them from below with `max`, so negative configured values behave like 0
here, which the same clamps send to the same minimum).  The `mpc_*`
fields are used by src/ControllerMPC.cpp; their declaration is not among
the given sources, so their defaults below are arbitrary — every theorem
quantifies over the configuration. -/
structure ControllerConfig where
  margin_top_m : ℚ := mkRat 8 100
  margin_bottom_m : ℚ := mkRat 8 100
  warn_threshold_m : ℚ := mkRat 12 100
  hard_threshold_m : ℚ := 0
  search_lift_half_range_m : ℚ := mkRat 12 100
  search_tilt_half_range_rad : ℚ := mkRat 10 100
  grid_lift_steps : ℕ := 9
  grid_tilt_steps : ℕ := 9
  lookahead_s_m : ℚ := 0
  w_center : ℚ := 8
  w_dl : ℚ := 2
  w_dt : ℚ := 2
  w_smooth : ℚ := mkRat 6 10
  base_lift_rate_limit_m_s : ℚ := mkRat 20 100
  base_tilt_rate_limit_rad_s : ℚ := mkRat 35 100
  base_speed_limit_m_s : ℚ := 1
  min_speed_limit_m_s : ℚ := mkRat 2 100
  pitch_rate_jitter_threshold_rad_s : ℚ := mkRat 45 100
  degraded_margin_multiplier : ℚ := 2
  degraded_rate_multiplier : ℚ := mkRat 5 10
  degraded_speed_multiplier : ℚ := mkRat 5 10
  mpc_horizon_steps : ℕ := 8
  mpc_beam_width : ℕ := 12
  mpc_assumed_forward_speed_m_s : ℚ := mkRat 5 10
  mpc_use_pitch_rate_prediction : ℚ := 0
deriving DecidableEq

/-- Cross-cycle controller state: elapsed time plus the two smoothing-rate
scalars (identical fields in Controller.hpp and ControllerMPC.hpp; member
initialisers set all three to 0). -/
structure CState where
  time_s : ℚ := 0
  prev_lift_rate_m_s : ℚ := 0
  prev_tilt_rate_rad_s : ℚ := 0
deriving DecidableEq

/-- The freshly-constructed state (member initialisers). -/
def initState : CState := {}

/-- `Controller::reset` / `ControllerMPC::reset`: both set all three
scalars to 0, ignoring the previous state. -/
def resetState (_s : CState) : CState := ⟨0, 0, 0⟩

/-- `clamp` helper (identical in Controller.cpp and ControllerMPC.cpp):
`max(lo, min(hi, v))`. -/
def clamp (v lo hi : ℚ) : ℚ := qmax lo (qmin hi v)

/-- `lerp` helper from Controller.cpp: a + (b − a)·t. -/
def lerp (a b t : ℚ) : ℚ := qadd a (qmul (qsub b a) t)

/-- `finiteAll` (byte-identical static helper in Controller.cpp and
ControllerMPC.cpp): conjunction of the isfinite checks. -/
def finiteAll (inp : ControlInput) : Bool :=
  inp.fin.dt_s && inp.fin.pitch_rad && inp.fin.pitch_rate_rad_s && inp.fin.s_m &&
    inp.fin.lift_pos_m && inp.fin.tilt_rad && inp.fin.rack_height && inp.fin.rack_length &&
    inp.fin.mount_x && inp.fin.mount_z

/-- The sanitised time step: `(in.dt_s > 1e-6 && isfinite(in.dt_s)) ? in.dt_s
: 0.02` (identical in both step functions).  A non-finite dt_s fails the
conjunction for every IEEE non-finite value (NaN and -inf fail the
comparison, +inf fails isfinite), which the flag conjunct captures. -/
def sanitizedDt (inp : ControlInput) : ℚ :=
  if inp.dt_s > mkRat 1 1000000 ∧ inp.fin.dt_s then inp.dt_s else mkRat 2 100

/-- The invalid-input test of both step functions:
`!inputs_valid || !finiteAll(in) || !(dt > 0.0)` — note it tests the
sanitised dt, not the raw input field. -/
def invalidInput (inp : ControlInput) : Bool :=
  !inp.inputs_valid || !finiteAll inp || !(decide (sanitizedDt inp > 0))

/-- The pitch-rate jitter test of both step functions. -/
def jitterInput (cfg : ControllerConfig) (inp : ControlInput) : Bool :=
  decide (qabs inp.pitch_rate_rad_s > cfg.pitch_rate_jitter_threshold_rad_s)

/-- The degraded flag of both step functions (invalid, else-if jitter). -/
def isDegraded (cfg : ControllerConfig) (inp : ControlInput) : Bool :=
  invalidInput inp || jitterInput cfg inp

/-- The degraded diagnostic code selected by both step functions. -/
def degradedCode (cfg : ControllerConfig) (inp : ControlInput) : SafetyCode :=
  if invalidInput inp then SafetyCode.InputInvalid
  else if jitterInput cfg inp then SafetyCode.PitchJitter
  else SafetyCode.None

/-- The degraded message selected by both step functions. -/
def degradedMsg (cfg : ControllerConfig) (inp : ControlInput) : String :=
  if invalidInput inp then "Invalid inputs"
  else if jitterInput cfg inp then "Pitch rate jitter"
  else ""

/-- Degraded-scaled top margin used by both step functions. -/
def marginTopOf (cfg : ControllerConfig) (inp : ControlInput) : ℚ :=
  qmul cfg.margin_top_m (if isDegraded cfg inp then cfg.degraded_margin_multiplier else 1)

/-- Degraded-scaled bottom margin used by both step functions. -/
def marginBottomOf (cfg : ControllerConfig) (inp : ControlInput) : ℚ :=
  qmul cfg.margin_bottom_m (if isDegraded cfg inp then cfg.degraded_margin_multiplier else 1)

/-- Degraded-scaled lift rate limit used by both step functions. -/
def liftRateLimitOf (cfg : ControllerConfig) (inp : ControlInput) : ℚ :=
  qmul cfg.base_lift_rate_limit_m_s (if isDegraded cfg inp then cfg.degraded_rate_multiplier else 1)

/-- Degraded-scaled tilt rate limit used by both step functions. -/
def tiltRateLimitOf (cfg : ControllerConfig) (inp : ControlInput) : ℚ :=
  qmul cfg.base_tilt_rate_limit_rad_s (if isDegraded cfg inp then cfg.degraded_rate_multiplier else 1)

/-- Degraded speed multiplier used by both step functions. -/
def speedMultOf (cfg : ControllerConfig) (inp : ControlInput) : ℚ :=
  if isDegraded cfg inp then cfg.degraded_speed_multiplier else 1

/-- Current-cycle corners at the input state (both step functions). -/
def currentCorners (T : TrigModel) (inp : ControlInput) : CornerPoints2D :=
  computeRackCorners2D T inp.s_m inp.lift_pos_m inp.pitch_rad inp.tilt_rad inp.env inp.rack inp.forklift

/-- Current-cycle clearances at the input state (both step functions). -/
def currentClear (T : TrigModel) (cfg : ControllerConfig) (inp : ControlInput) : ClearanceResult :=
  computeClearances (currentCorners T inp) inp.env (marginTopOf cfg inp) (marginBottomOf cfg inp)

/-- `s_look = s + max(0, lookahead)` (both step functions). -/
def sLook (cfg : ControllerConfig) (inp : ControlInput) : ℚ :=
  qadd inp.s_m (qmax 0 cfg.lookahead_s_m)

/-- Look-ahead clearances at `s_look` with the same lift/tilt/pitch, taken
only when `lookahead_s_m > 1e-9` (both step functions). -/
def currentClearAhead (T : TrigModel) (cfg : ControllerConfig) (inp : ControlInput) : ClearanceResult :=
  if cfg.lookahead_s_m > mkRat 1 1000000000 then
    computeClearances
      (computeRackCorners2D T (sLook cfg inp) inp.lift_pos_m inp.pitch_rad inp.tilt_rad inp.env inp.rack inp.forklift)
      inp.env (marginTopOf cfg inp) (marginBottomOf cfg inp)
  else currentClear T cfg inp

/-- Working top clearance this cycle: pointwise worse of current and
look-ahead (both step functions). -/
def workingTop (T : TrigModel) (cfg : ControllerConfig) (inp : ControlInput) : ℚ :=
  qmin (currentClear T cfg inp).clearance_top_m (currentClearAhead T cfg inp).clearance_top_m

/-- Working bottom clearance this cycle (both step functions). -/
def workingBottom (T : TrigModel) (cfg : ControllerConfig) (inp : ControlInput) : ℚ :=
  qmin (currentClear T cfg inp).clearance_bottom_m (currentClearAhead T cfg inp).clearance_bottom_m

/-- One grid candidate as evaluated by the search loop of
`Controller::step` (src/Controller.cpp): target pair, combined (working)
clearance result, min clearance, feasibility and cost.  The C++ computes
the cost only on the feasible path; computing it unconditionally here is
observationally identical because it is only consumed on that path. -/
structure CandEval where
  lift : ℚ
  tilt : ℚ
  clr : ClearanceResult
  min_clear : ℚ
  feasible : Bool
  cost : ℚ
deriving DecidableEq

/-- The per-cycle quantities the grid search closes over. -/
structure GridCtx where
  T : TrigModel
  cfg : ControllerConfig
  inp : ControlInput
  dt : ℚ
  margin_top : ℚ
  margin_bottom : ℚ
  prev_lift_rate : ℚ
  prev_tilt_rate : ℚ

/-- Scan order of the two nested candidate loops: outer lift index, inner
tilt index. -/
def gridPoints (nL nT : ℕ) : List (ℕ × ℕ) :=
  (List.range nL).flatMap (fun i => (List.range nT).map (fun j => (i, j)))

namespace Controller

/-- Context built at the top of `Controller::step`. -/
def mkCtx (T : TrigModel) (cfg : ControllerConfig) (st : CState) (inp : ControlInput) : GridCtx :=
  ⟨T, cfg, inp, sanitizedDt inp, marginTopOf cfg inp, marginBottomOf cfg inp,
    st.prev_lift_rate_m_s, st.prev_tilt_rate_rad_s⟩

/-- Body of the candidate loops of `Controller::step` (lines 156-199 of
src/Controller.cpp) for grid indices (i, j). -/
def evalCand (G : GridCtx) (ij : ℕ × ℕ) : CandEval :=
  let nL := Nat.max 3 G.cfg.grid_lift_steps
  let nT := Nat.max 3 G.cfg.grid_tilt_steps
  let lift0 := G.inp.lift_pos_m
  let tilt0 := G.inp.tilt_rad
  let tL := if nL = 1 then 0 else qdiv (mkRat (ij.1 : ℤ) 1) (qsub (mkRat (nL : ℤ) 1) 1)
  let lift_c := lerp (qsub lift0 G.cfg.search_lift_half_range_m) (qadd lift0 G.cfg.search_lift_half_range_m) tL
  let tT := if nT = 1 then 0 else qdiv (mkRat (ij.2 : ℤ) 1) (qsub (mkRat (nT : ℤ) 1) 1)
  let tilt_c := lerp (qsub tilt0 G.cfg.search_tilt_half_range_rad) (qadd tilt0 G.cfg.search_tilt_half_range_rad) tT
  let corners := computeRackCorners2D G.T G.inp.s_m lift_c G.inp.pitch_rad tilt_c G.inp.env G.inp.rack G.inp.forklift
  let clr := computeClearances corners G.inp.env G.margin_top G.margin_bottom
  let clr_worst :=
    if G.cfg.lookahead_s_m > mkRat 1 1000000000 then
      let corners_a := computeRackCorners2D G.T (sLook G.cfg G.inp) lift_c G.inp.pitch_rad tilt_c G.inp.env G.inp.rack G.inp.forklift
      let clr_a := computeClearances corners_a G.inp.env G.margin_top G.margin_bottom
      { clr with
          clearance_top_m := qmin clr.clearance_top_m clr_a.clearance_top_m
          clearance_bottom_m := qmin clr.clearance_bottom_m clr_a.clearance_bottom_m }
    else clr
  let min_clear := qmin clr_worst.clearance_top_m clr_worst.clearance_bottom_m
  let feasible := decide (clr_worst.clearance_top_m ≥ 0) && decide (clr_worst.clearance_bottom_m ≥ 0)
  let clearance_mid := qsub clr_worst.clearance_top_m clr_worst.clearance_bottom_m
  let lift_rate := qdiv (qsub lift_c lift0) G.dt
  let tilt_rate := qdiv (qsub tilt_c tilt0) G.dt
  let d_lift_rate := qsub lift_rate G.prev_lift_rate
  let d_tilt_rate := qsub tilt_rate G.prev_tilt_rate
  let cost :=
    qadd (qadd (qadd (qmul G.cfg.w_center (qmul clearance_mid clearance_mid))
          (qmul G.cfg.w_dl (qmul (qsub lift_c lift0) (qsub lift_c lift0))))
        (qmul G.cfg.w_dt (qmul (qsub tilt_c tilt0) (qsub tilt_c tilt0))))
      (qmul G.cfg.w_smooth (qadd (qmul d_lift_rate d_lift_rate) (qmul d_tilt_rate d_tilt_rate)))
  ⟨lift_c, tilt_c, clr_worst, min_clear, feasible, cost⟩

/-- All candidates in scan order. -/
def candList (G : GridCtx) : List CandEval :=
  (gridPoints (Nat.max 3 G.cfg.grid_lift_steps) (Nat.max 3 G.cfg.grid_tilt_steps)).map (evalCand G)

end Controller

/-- Accumulator of the minimum-cost feasible candidate (`best` in
`Controller::step`).  `cost = none` models the `infinity` initialiser. -/
structure GridBest where
  feasible : Bool
  cost : Option ℚ
  lift : ℚ
  tilt : ℚ
  clr : ClearanceResult
deriving DecidableEq

/-- Accumulator of the max-min-clearance fallback candidate (`best_min_*`
in `Controller::step`).  `min_clear = none` models the `-infinity`
initialiser. -/
structure GridFallback where
  min_clear : Option ℚ
  lift : ℚ
  tilt : ℚ
  clr : ClearanceResult
deriving DecidableEq

/-- `cost < best.cost` with `none` as +infinity. -/
def costLT (x : ℚ) : Option ℚ → Bool
  | none => true
  | some b => decide (x < b)

/-- `min_clear > best_min_clear` with `none` as -infinity. -/
def clearGT (x : ℚ) : Option ℚ → Bool
  | none => true
  | some m => decide (x > m)

/-- One update of the `best` accumulator (the `if (!feasible) continue; ...
if (cost < best.cost)` step). -/
def bestStep (acc : GridBest) (c : CandEval) : GridBest :=
  if c.feasible && costLT c.cost acc.cost then ⟨true, some c.cost, c.lift, c.tilt, c.clr⟩ else acc

/-- One update of the fallback accumulator (the `if (min_clear >
best_min_clear)` step). -/
def fbStep (acc : GridFallback) (c : CandEval) : GridFallback :=
  if clearGT c.min_clear acc.min_clear then ⟨some c.min_clear, c.lift, c.tilt, c.clr⟩ else acc

namespace Controller

/-- Initial `best` accumulator of `Controller::step`. -/
def bestInit (G : GridCtx) : GridBest :=
  ⟨false, none, G.inp.lift_pos_m, G.inp.tilt_rad,
    computeClearances (currentCorners G.T G.inp) G.inp.env G.margin_top G.margin_bottom⟩

/-- Initial fallback accumulator of `Controller::step`. -/
def fbInit (G : GridCtx) : GridFallback :=
  ⟨none, G.inp.lift_pos_m, G.inp.tilt_rad,
    computeClearances (currentCorners G.T G.inp) G.inp.env G.margin_top G.margin_bottom⟩

/-- The minimum-cost feasible candidate tracked over the scan. -/
def bestFold (G : GridCtx) : GridBest := (candList G).foldl bestStep (bestInit G)

/-- The max-min-clearance fallback candidate tracked over the scan. -/
def fbFold (G : GridCtx) : GridFallback := (candList G).foldl fbStep (fbInit G)

/-- The speed policy of `Controller::step` (lines 239-250 of
src/Controller.cpp). -/
def speedLimit (cfg : ControllerConfig) (speed_mult pitch_rate min_clear : ℚ) : ℚ :=
  let clearance_factor := clamp (qdiv min_clear cfg.warn_threshold_m) 0 1
  let pitch_rate_factor :=
    clamp (qsub 1 (qdiv (qabs pitch_rate) (qmul 2 cfg.pitch_rate_jitter_threshold_rad_s))) (mkRat 2 10) 1
  let base_speed := qmul cfg.base_speed_limit_m_s speed_mult
  let speed := qmul base_speed (qmin clearance_factor pitch_rate_factor)
  if min_clear ≥ cfg.hard_threshold_m then
    qmax speed (qmul (qmul cfg.min_speed_limit_m_s speed_mult) pitch_rate_factor)
  else 0

/-- `makeSafety` as defined in src/Controller.cpp — note: no epsilon on the
hard threshold in this translation unit. -/
def makeSafety (cfg : ControllerConfig) (clearance_top_m clearance_bottom_m : ℚ)
    (worst : CornerId) (degraded : Bool) (code_override : SafetyCode)
    (message_override : String) : SafetyStatus :=
  if degraded then
    { level := SafetyLevel.DEGRADED
      code := if code_override = SafetyCode.None then SafetyCode.InputInvalid else code_override
      message := if message_override = "" then "DEGRADED" else message_override
      clearance_top_m := clearance_top_m
      clearance_bottom_m := clearance_bottom_m
      worst_point := worst }
  else
    let min_clear := qmin clearance_top_m clearance_bottom_m
    if min_clear < cfg.hard_threshold_m then
      { level := SafetyLevel.STOP
        code := if code_override = SafetyCode.None then SafetyCode.ClearanceHardViolated else code_override
        message := if message_override = "" then "STOP: hard clearance violated" else message_override
        clearance_top_m := clearance_top_m
        clearance_bottom_m := clearance_bottom_m
        worst_point := worst }
    else if min_clear < cfg.warn_threshold_m then
      { level := SafetyLevel.WARN
        code := if code_override = SafetyCode.None then SafetyCode.ClearanceSoftNear else code_override
        message := if message_override = "" then "WARN: clearance near boundary" else message_override
        clearance_top_m := clearance_top_m
        clearance_bottom_m := clearance_bottom_m
        worst_point := worst }
    else
      { level := SafetyLevel.OK
        code := if code_override = SafetyCode.None then SafetyCode.None else code_override
        message := if code_override ≠ SafetyCode.None ∧ message_override ≠ "" then message_override else "OK"
        clearance_top_m := clearance_top_m
        clearance_bottom_m := clearance_bottom_m
        worst_point := worst }

/-- `Controller::step` from src/Controller.cpp, with the cross-cycle state
passed explicitly; returns the frame and the updated state. -/
def step (T : TrigModel) (cfg : ControllerConfig) (st : CState) (inp : ControlInput) :
    DebugFrame × CState :=
  let dt := sanitizedDt inp
  let time' := qadd st.time_s dt
  let degraded := isDegraded cfg inp
  let lift_rate_limit := liftRateLimitOf cfg inp
  let tilt_rate_limit := tiltRateLimitOf cfg inp
  let corners := currentCorners T inp
  let current_clear := currentClear T cfg inp
  let top_worst := workingTop T cfg inp
  let bottom_worst := workingBottom T cfg inp
  let G := mkCtx T cfg st inp
  let best := bestFold G
  let fb := fbFold G
  let lift0 := inp.lift_pos_m
  let tilt0 := inp.tilt_rad
  let lift_star := if best.feasible then best.lift else fb.lift
  let tilt_star := if best.feasible then best.tilt else fb.tilt
  let search_code := if best.feasible then SafetyCode.None else SafetyCode.NoFeasibleSolution
  let search_msg := if best.feasible then "" else "No feasible (lift,tilt) in neighborhood"
  let min_clear := qmin top_worst bottom_worst
  let speed := speedLimit cfg (speedMultOf cfg inp) inp.pitch_rate_rad_s min_clear
  let safety :=
    if degraded then
      makeSafety cfg top_worst bottom_worst current_clear.worst_point true
        (degradedCode cfg inp) (degradedMsg cfg inp)
    else
      makeSafety cfg top_worst bottom_worst current_clear.worst_point false search_code search_msg
  let frame : DebugFrame :=
    { time_s := time'
      inp := inp
      cmd :=
        { lift_target_m := lift_star
          lift_rate_limit_m_s := lift_rate_limit
          tilt_target_rad := tilt_star
          tilt_rate_limit_rad_s := tilt_rate_limit
          speed_limit_m_s := speed }
      safety := safety
      corners := corners
      selected_cost := if best.feasible then best.cost.getD 0 else 0
      had_feasible_solution := best.feasible }
  let st' : CState :=
    ⟨time', clamp (qdiv (qsub lift_star lift0) dt) (qneg lift_rate_limit) lift_rate_limit,
      clamp (qdiv (qsub tilt_star tilt0) dt) (qneg tilt_rate_limit) tilt_rate_limit⟩
  (frame, st')

/-- A sequence of step calls threaded through the state. -/
def runSteps (T : TrigModel) (cfg : ControllerConfig) (st : CState)
    (ins : List ControlInput) : CState :=
  ins.foldl (fun s i => (step T cfg s i).2) st

end Controller

/-- `kClearanceEpsilonM` from src/ControllerMPC.cpp (5e-4). -/
def kClearanceEpsilonM : ℚ := mkRat 5 10000

/-- One predicted state along a candidate sequence: the arguments of the
clearance check performed at that expansion.  Recorded for verification
only (ghost data, see `SeqNode.trace`). -/
structure PredState where
  s_m : ℚ
  lift_m : ℚ
  tilt_rad : ℚ
  pitch_rad : ℚ
deriving DecidableEq

/-- `SeqNode` from src/ControllerMPC.cpp.  The extra `trace` field is a
proof ghost not present in the C++: it records the predicted states the
sequence has passed the feasibility check at.  No computed output depends
on it — selection compares `cost` only, and the command uses `u0_*`. -/
structure SeqNode where
  cost : ℚ := 0
  s_m : ℚ := 0
  lift_m : ℚ := 0
  tilt_rad : ℚ := 0
  last_lift_rate : ℚ := 0
  last_tilt_rate : ℚ := 0
  u0_lift_rate : ℚ := 0
  u0_tilt_rate : ℚ := 0
  has_u0 : Bool := false
  trace : List PredState := []
deriving DecidableEq

/-- The per-cycle quantities the beam search closes over
(`ControllerMPC::step`, lines 116-160). -/
structure BeamCtx where
  T : TrigModel
  cfg : ControllerConfig
  inp : ControlInput
  dt : ℚ
  margin_top : ℚ
  margin_bottom : ℚ
  lift_rate_limit : ℚ
  tilt_rate_limit : ℚ
  assumed_v : ℚ
  lift0 : ℚ
  tilt0 : ℚ
  beam : ℕ

namespace ControllerMPC

/-- Context built at the top of `ControllerMPC::step`. -/
def mkCtx (T : TrigModel) (cfg : ControllerConfig) (inp : ControlInput) : BeamCtx :=
  { T := T
    cfg := cfg
    inp := inp
    dt := sanitizedDt inp
    margin_top := marginTopOf cfg inp
    margin_bottom := marginBottomOf cfg inp
    lift_rate_limit := liftRateLimitOf cfg inp
    tilt_rate_limit := tiltRateLimitOf cfg inp
    assumed_v := qmul (qmax 0 cfg.mpc_assumed_forward_speed_m_s) (speedMultOf cfg inp)
    lift0 := inp.lift_pos_m
    tilt0 := inp.tilt_rad
    beam := Nat.max 5 cfg.mpc_beam_width }

/-- The 5 discretised lift rates (a1 = 1.0, a2 = 0.5):
{−a1, −a2, 0, a2, a1} × rate limit. -/
def liftRates (B : BeamCtx) : List ℚ :=
  [qmul (qneg 1) B.lift_rate_limit, qmul (qneg (mkRat 5 10)) B.lift_rate_limit, 0,
    qmul (mkRat 5 10) B.lift_rate_limit, qmul 1 B.lift_rate_limit]

/-- The 5 discretised tilt rates. -/
def tiltRates (B : BeamCtx) : List ℚ :=
  [qmul (qneg 1) B.tilt_rate_limit, qmul (qneg (mkRat 5 10)) B.tilt_rate_limit, 0,
    qmul (mkRat 5 10) B.tilt_rate_limit, qmul 1 B.tilt_rate_limit]

/-- `pitchAtStep` lambda of `ControllerMPC::step`. -/
def pitchAtStep (B : BeamCtx) (k : ℕ) : ℚ :=
  if B.cfg.mpc_use_pitch_rate_prediction ≤ 0 then B.inp.pitch_rad
  else qadd B.inp.pitch_rad (qmul (qmul B.inp.pitch_rate_rad_s B.dt) (mkRat (k : ℤ) 1))

/-- `stageCost` lambda of `ControllerMPC::step`. -/
def stageCost (B : BeamCtx) (clearance_top_m clearance_bottom_m lift_m tilt_rad
    lift_rate tilt_rate prev_lift_rate prev_tilt_rate : ℚ) : ℚ :=
  let mid := qsub clearance_top_m clearance_bottom_m
  let d_lift_rate := qsub lift_rate prev_lift_rate
  let d_tilt_rate := qsub tilt_rate prev_tilt_rate
  qadd (qadd (qmul B.cfg.w_center (qmul mid mid))
      (qadd (qmul B.cfg.w_dl (qmul (qsub lift_m B.lift0) (qsub lift_m B.lift0)))
        (qmul B.cfg.w_dt (qmul (qsub tilt_rad B.tilt0) (qsub tilt_rad B.tilt0)))))
    (qmul B.cfg.w_smooth (qadd (qmul d_lift_rate d_lift_rate) (qmul d_tilt_rate d_tilt_rate)))

/-- One expansion of a sequence node by the action pair (lr, tr) at horizon
step k (the inner loop body of `ControllerMPC::step`, lines 192-237):
`none` when the expansion is pruned as infeasible at the predicted state. -/
def childOf (B : BeamCtx) (k : ℕ) (node : SeqNode) (lr tr : ℚ) : Option SeqNode :=
  let lift_next := qadd node.lift_m (qmul lr B.dt)
  let tilt_next := qadd node.tilt_rad (qmul tr B.dt)
  let s_next := qadd node.s_m (qmul B.assumed_v B.dt)
  let pitch_k := pitchAtStep B (k + 1)
  let corners := computeRackCorners2D B.T s_next lift_next pitch_k tilt_next B.inp.env B.inp.rack B.inp.forklift
  let clr := computeClearances corners B.inp.env B.margin_top B.margin_bottom
  if ¬(clr.clearance_top_m ≥ 0) ∨ ¬(clr.clearance_bottom_m ≥ 0) then none
  else
    let mkChild : ℚ → SeqNode := fun stage_cost =>
      { cost := qadd node.cost stage_cost
        s_m := s_next
        lift_m := lift_next
        tilt_rad := tilt_next
        last_lift_rate := lr
        last_tilt_rate := tr
        u0_lift_rate := if node.has_u0 then node.u0_lift_rate else lr
        u0_tilt_rate := if node.has_u0 then node.u0_tilt_rate else tr
        has_u0 := true
        trace := node.trace ++ [⟨s_next, lift_next, tilt_next, pitch_k⟩] }
    if B.cfg.lookahead_s_m > mkRat 1 1000000000 then
      let s_a := qadd s_next B.cfg.lookahead_s_m
      let corners_a := computeRackCorners2D B.T s_a lift_next pitch_k tilt_next B.inp.env B.inp.rack B.inp.forklift
      let clr_a := computeClearances corners_a B.inp.env B.margin_top B.margin_bottom
      let top_w := qmin clr.clearance_top_m clr_a.clearance_top_m
      let bot_w := qmin clr.clearance_bottom_m clr_a.clearance_bottom_m
      if ¬(top_w ≥ 0) ∨ ¬(bot_w ≥ 0) then none
      else some (mkChild (stageCost B top_w bot_w lift_next tilt_next lr tr node.last_lift_rate node.last_tilt_rate))
    else
      some (mkChild (stageCost B clr.clearance_top_m clr.clearance_bottom_m lift_next tilt_next lr tr node.last_lift_rate node.last_tilt_rate))

/-- All surviving expansions of one node (25 action pairs in source order). -/
def expandChildren (B : BeamCtx) (k : ℕ) (node : SeqNode) : List SeqNode :=
  (liftRates B).flatMap (fun lr => (tiltRates B).filterMap (fun tr => childOf B k node lr tr))

/-- All surviving expansions of a frontier at horizon step k. -/
def expandStep (B : BeamCtx) (k : ℕ) (frontier : List SeqNode) : List SeqNode :=
  frontier.flatMap (expandChildren B k)

/-- Cost-ordered insertion (deterministic refinement of `std::nth_element`,
whose ordering among retained nodes is unspecified; the retained SET of B
lowest-cost nodes is the contract the source relies on). -/
def insertByCost (n : SeqNode) : List SeqNode → List SeqNode
  | [] => [n]
  | m :: ms => if n.cost < m.cost then n :: m :: ms else m :: insertByCost n ms

/-- Stable sort by cost. -/
def sortByCost (l : List SeqNode) : List SeqNode := l.foldr insertByCost []

/-- Beam retention: keep the `beam` lowest-cost survivors. -/
def selectBeam (beam : ℕ) (l : List SeqNode) : List SeqNode := (sortByCost l).take beam

/-- The horizon loop of `ControllerMPC::step` (lines 185-256): expand, break
early if no expansion survives, else retain the beam. -/
def beamLoop (B : BeamCtx) : ℕ → ℕ → List SeqNode → List SeqNode
  | 0, _, frontier => frontier
  | fuel + 1, k, frontier =>
    let next := expandStep B k frontier
    if next.isEmpty then frontier
    else beamLoop B fuel (k + 1) (selectBeam B.beam next)

/-- The initial single-element frontier (the root node, line 179). -/
def rootNode (inp : ControlInput) (st : CState) : SeqNode :=
  ⟨0, inp.s_m, inp.lift_pos_m, inp.tilt_rad, st.prev_lift_rate_m_s, st.prev_tilt_rate_rad_s, 0, 0, false, []⟩

/-- The frontier remaining after the horizon completes or truncates. -/
def mpcFrontier (T : TrigModel) (cfg : ControllerConfig) (inp : ControlInput) (st : CState) :
    List SeqNode :=
  beamLoop (mkCtx T cfg inp) (Nat.max 1 cfg.mpc_horizon_steps) 0 [rootNode inp st]

/-- Lowest-cost node of the final frontier (first one wins ties, like the
C++ strict-`<` scan); `none` only for an empty frontier. -/
def pickBest : List SeqNode → Option SeqNode :=
  List.foldl
    (fun acc n =>
      match acc with
      | none => some n
      | some b => if n.cost < b.cost then some n else some b)
    none

/-- The survivor the command is derived from: the best node provided it
records a first action (`any_feasible_sequence && best_node.has_u0`);
`none` sends `ControllerMPC::step` to the grid fallback. -/
def chosenNode (T : TrigModel) (cfg : ControllerConfig) (inp : ControlInput) (st : CState) :
    Option SeqNode :=
  match pickBest (mpcFrontier T cfg inp st) with
  | some b => if b.has_u0 then some b else none
  | none => none

/-- Body of the fallback grid loop of `ControllerMPC::step` (lines 294-318)
for grid indices (i, j): the candidate min clearance and target pair. -/
def fbEval (T : TrigModel) (cfg : ControllerConfig) (inp : ControlInput)
    (margin_top margin_bottom : ℚ) (ij : ℕ × ℕ) : ℚ × ℚ × ℚ :=
  let nL := Nat.max 3 cfg.grid_lift_steps
  let nT := Nat.max 3 cfg.grid_tilt_steps
  let lift0 := inp.lift_pos_m
  let tilt0 := inp.tilt_rad
  let tL := if nL = 1 then 0 else qdiv (mkRat (ij.1 : ℤ) 1) (qsub (mkRat (nL : ℤ) 1) 1)
  let lift_c := qadd (qsub lift0 cfg.search_lift_half_range_m)
    (qmul (qsub (qadd lift0 cfg.search_lift_half_range_m) (qsub lift0 cfg.search_lift_half_range_m)) tL)
  let tT := if nT = 1 then 0 else qdiv (mkRat (ij.2 : ℤ) 1) (qsub (mkRat (nT : ℤ) 1) 1)
  let tilt_c := qadd (qsub tilt0 cfg.search_tilt_half_range_rad)
    (qmul (qsub (qadd tilt0 cfg.search_tilt_half_range_rad) (qsub tilt0 cfg.search_tilt_half_range_rad)) tT)
  let corners := computeRackCorners2D T inp.s_m lift_c inp.pitch_rad tilt_c inp.env inp.rack inp.forklift
  let clr := computeClearances corners inp.env margin_top margin_bottom
  let top_w := clr.clearance_top_m
  let bot_w := clr.clearance_bottom_m
  let top_w2 :=
    if cfg.lookahead_s_m > mkRat 1 1000000000 then
      qmin top_w (computeClearances
        (computeRackCorners2D T (sLook cfg inp) lift_c inp.pitch_rad tilt_c inp.env inp.rack inp.forklift)
        inp.env margin_top margin_bottom).clearance_top_m
    else top_w
  let bot_w2 :=
    if cfg.lookahead_s_m > mkRat 1 1000000000 then
      qmin bot_w (computeClearances
        (computeRackCorners2D T (sLook cfg inp) lift_c inp.pitch_rad tilt_c inp.env inp.rack inp.forklift)
        inp.env margin_top margin_bottom).clearance_bottom_m
    else bot_w
  (qmin top_w2 bot_w2, lift_c, tilt_c)

/-- One update of the fallback accumulator of `ControllerMPC::step`. -/
def fbAccStep (acc : Option ℚ × ℚ × ℚ) (c : ℚ × ℚ × ℚ) : Option ℚ × ℚ × ℚ :=
  if clearGT c.1 acc.1 then (some c.1, c.2.1, c.2.2) else acc

/-- The fallback max-min-clearance search of `ControllerMPC::step`. -/
def fbSearch (T : TrigModel) (cfg : ControllerConfig) (inp : ControlInput)
    (margin_top margin_bottom : ℚ) : Option ℚ × ℚ × ℚ :=
  ((gridPoints (Nat.max 3 cfg.grid_lift_steps) (Nat.max 3 cfg.grid_tilt_steps)).map
      (fbEval T cfg inp margin_top margin_bottom)).foldl
    fbAccStep (none, inp.lift_pos_m, inp.tilt_rad)

/-- `makeSafety` as defined in src/ControllerMPC.cpp — identical to the
grid-controller version except the epsilon guard on the hard threshold. -/
def makeSafety (cfg : ControllerConfig) (clearance_top_m clearance_bottom_m : ℚ)
    (worst : CornerId) (degraded : Bool) (code_override : SafetyCode)
    (message_override : String) : SafetyStatus :=
  if degraded then
    { level := SafetyLevel.DEGRADED
      code := if code_override = SafetyCode.None then SafetyCode.InputInvalid else code_override
      message := if message_override = "" then "DEGRADED" else message_override
      clearance_top_m := clearance_top_m
      clearance_bottom_m := clearance_bottom_m
      worst_point := worst }
  else
    let min_clear := qmin clearance_top_m clearance_bottom_m
    if min_clear < qsub cfg.hard_threshold_m kClearanceEpsilonM then
      { level := SafetyLevel.STOP
        code := if code_override = SafetyCode.None then SafetyCode.ClearanceHardViolated else code_override
        message := if message_override = "" then "STOP: hard clearance violated" else message_override
        clearance_top_m := clearance_top_m
        clearance_bottom_m := clearance_bottom_m
        worst_point := worst }
    else if min_clear < cfg.warn_threshold_m then
      { level := SafetyLevel.WARN
        code := if code_override = SafetyCode.None then SafetyCode.ClearanceSoftNear else code_override
        message := if message_override = "" then "WARN: clearance near boundary" else message_override
        clearance_top_m := clearance_top_m
        clearance_bottom_m := clearance_bottom_m
        worst_point := worst }
    else
      { level := SafetyLevel.OK
        code := if code_override = SafetyCode.None then SafetyCode.None else code_override
        message := if code_override ≠ SafetyCode.None ∧ message_override ≠ "" then message_override else "OK"
        clearance_top_m := clearance_top_m
        clearance_bottom_m := clearance_bottom_m
        worst_point := worst }

/-- The speed policy of `ControllerMPC::step` (lines 331-342) — identical
to the grid-controller version except the epsilon guard. -/
def speedLimit (cfg : ControllerConfig) (speed_mult pitch_rate min_clear : ℚ) : ℚ :=
  let clearance_factor := clamp (qdiv min_clear cfg.warn_threshold_m) 0 1
  let pitch_rate_factor :=
    clamp (qsub 1 (qdiv (qabs pitch_rate) (qmul 2 cfg.pitch_rate_jitter_threshold_rad_s))) (mkRat 2 10) 1
  let base_speed := qmul cfg.base_speed_limit_m_s speed_mult
  let speed := qmul base_speed (qmin clearance_factor pitch_rate_factor)
  if min_clear ≥ qsub cfg.hard_threshold_m kClearanceEpsilonM then
    qmax speed (qmul (qmul cfg.min_speed_limit_m_s speed_mult) pitch_rate_factor)
  else 0

/-- `ControllerMPC::step` from src/ControllerMPC.cpp, state passed
explicitly. -/
def step (T : TrigModel) (cfg : ControllerConfig) (st : CState) (inp : ControlInput) :
    DebugFrame × CState :=
  let dt := sanitizedDt inp
  let time' := qadd st.time_s dt
  let degraded := isDegraded cfg inp
  let lift_rate_limit := liftRateLimitOf cfg inp
  let tilt_rate_limit := tiltRateLimitOf cfg inp
  let corners := currentCorners T inp
  let current_clear := currentClear T cfg inp
  let top_worst := workingTop T cfg inp
  let bottom_worst := workingBottom T cfg inp
  let lift0 := inp.lift_pos_m
  let tilt0 := inp.tilt_rad
  let chosen := chosenNode T cfg inp st
  let fb := fbSearch T cfg inp (marginTopOf cfg inp) (marginBottomOf cfg inp)
  let lift_star :=
    match chosen with
    | some b => qadd lift0 (qmul (clamp b.u0_lift_rate (qneg lift_rate_limit) lift_rate_limit) dt)
    | none => fb.2.1
  let tilt_star :=
    match chosen with
    | some b => qadd tilt0 (qmul (clamp b.u0_tilt_rate (qneg tilt_rate_limit) tilt_rate_limit) dt)
    | none => fb.2.2
  let had_feasible := chosen.isSome
  let search_code := if chosen.isSome then SafetyCode.None else SafetyCode.NoFeasibleSolution
  let search_msg := if chosen.isSome then "" else "No feasible MPC sequence"
  let min_clear := qmin top_worst bottom_worst
  let speed := speedLimit cfg (speedMultOf cfg inp) inp.pitch_rate_rad_s min_clear
  let safety :=
    if degraded then
      makeSafety cfg top_worst bottom_worst current_clear.worst_point true
        (degradedCode cfg inp) (degradedMsg cfg inp)
    else
      makeSafety cfg top_worst bottom_worst current_clear.worst_point false search_code search_msg
  let frame : DebugFrame :=
    { time_s := time'
      inp := inp
      cmd :=
        { lift_target_m := lift_star
          lift_rate_limit_m_s := lift_rate_limit
          tilt_target_rad := tilt_star
          tilt_rate_limit_rad_s := tilt_rate_limit
          speed_limit_m_s := speed }
      safety := safety
      corners := corners
      selected_cost :=
        match pickBest (mpcFrontier T cfg inp st) with
        | some b => b.cost
        | none => 0
      had_feasible_solution := had_feasible }
  let st' : CState :=
    ⟨time', clamp (qdiv (qsub lift_star lift0) dt) (qneg lift_rate_limit) lift_rate_limit,
      clamp (qdiv (qsub tilt_star tilt0) dt) (qneg tilt_rate_limit) tilt_rate_limit⟩
  (frame, st')

/-- A sequence of MPC step calls threaded through the state. -/
def runSteps (T : TrigModel) (cfg : ControllerConfig) (st : CState)
    (ins : List ControlInput) : CState :=
  ins.foldl (fun s i => (step T cfg s i).2) st

/-- The per-state feasibility predicate the beam pruning enforces: at the
predicted state, the clearance (combined with the spatial look-ahead when
configured) is nonnegative on both sides.  This is precisely the condition
under which `childOf` keeps an expansion. -/
def stateFeasible (B : BeamCtx) (ps : PredState) : Bool :=
  let corners := computeRackCorners2D B.T ps.s_m ps.lift_m ps.pitch_rad ps.tilt_rad B.inp.env B.inp.rack B.inp.forklift
  let clr := computeClearances corners B.inp.env B.margin_top B.margin_bottom
  let clr_a := computeClearances
    (computeRackCorners2D B.T (qadd ps.s_m B.cfg.lookahead_s_m) ps.lift_m ps.pitch_rad ps.tilt_rad B.inp.env B.inp.rack B.inp.forklift)
    B.inp.env B.margin_top B.margin_bottom
  let top_w :=
    if B.cfg.lookahead_s_m > mkRat 1 1000000000 then qmin clr.clearance_top_m clr_a.clearance_top_m
    else clr.clearance_top_m
  let bot_w :=
    if B.cfg.lookahead_s_m > mkRat 1 1000000000 then qmin clr.clearance_bottom_m clr_a.clearance_bottom_m
    else clr.clearance_bottom_m
  decide (top_w ≥ 0) && decide (bot_w ≥ 0)

end ControllerMPC

/-- The clamp of the specification text, written with the order operations
of `ℚ` (for the spec-facing statements). -/
def clampR (v lo hi : ℚ) : ℚ := max lo (min hi v)

/-- Spec-side (C9): every corner x translated by Δ, z unchanged. -/
def shiftCorners (d : ℚ) (c : CornerPoints2D) : CornerPoints2D :=
  ⟨⟨c.rb.x + d, c.rb.z⟩, ⟨c.rt.x + d, c.rt.z⟩, ⟨c.fb.x + d, c.fb.z⟩, ⟨c.ft.x + d, c.ft.z⟩⟩

/-- Spec-side (C9): the Δ-shifted plane — x-profile translated by Δ
(z-at-x of the shifted plane at x + Δ equals the original at x). -/
def shiftPlane (d : ℚ) (p : Plane) : Plane := ⟨p.a, p.b, p.c, p.d - p.a * d⟩

/-- Spec-side (C9): a height function translated by Δ: x ↦ f (x − Δ). -/
def shiftHeightFun (d : ℚ) (f : ℚ → ℚ) : ℚ → ℚ := fun x => f (x - d)

/-- Spec-side (C9): the Δ-shifted environment — constants unchanged,
planes and height functions translated. -/
def shiftEnv (d : ℚ) (env : EnvironmentGeometry) : EnvironmentGeometry :=
  { ceiling_z_m := env.ceiling_z_m
    floor_z_m := env.floor_z_m
    ceiling_plane := env.ceiling_plane.map (shiftPlane d)
    floor_plane := env.floor_plane.map (shiftPlane d)
    ceiling_z_at_x_m := env.ceiling_z_at_x_m.map (shiftHeightFun d)
    floor_z_at_x_m := env.floor_z_at_x_m.map (shiftHeightFun d) }

/-! Concrete scenario constants used by the closed theorems below.  All of
them keep pitch = tilt = 0, so `trigAtZero` agrees with the real cos/sin
at every angle the computation evaluates. -/

/-- Ceiling 2.5 m, floor 0 (the environment of the repository tests). -/
def envCF : EnvironmentGeometry := { ceiling_z_m := some (mkRat 25 10), floor_z_m := some 0 }

/-- Ceiling 0, floor 0: no candidate with the 2.3 m rack is ever feasible. -/
def envBlocked : EnvironmentGeometry := { ceiling_z_m := some 0, floor_z_m := some 0 }

/-- The 2.3 × 2.3 rack with zero mount offset (as in tests/test_controller). -/
def rackNoOffset : RackParams :=
  { height_m := mkRat 23 10, length_m := mkRat 23 10, mount_offset_m := ⟨0, 0⟩ }

/-- C1 scenario configuration: minimum 3×3 grid, zero search half-ranges and
rate limits (collapsing the searches), 1-step MPC horizon. -/
def cfgC1 : ControllerConfig :=
  { grid_lift_steps := 3, grid_tilt_steps := 3,
    search_lift_half_range_m := 0, search_tilt_half_range_rad := 0,
    base_lift_rate_limit_m_s := 0, base_tilt_rate_limit_rad_s := 0,
    mpc_horizon_steps := 1, mpc_beam_width := 5, mpc_assumed_forward_speed_m_s := 0 }

/-- C1 failing input: time step exactly 0 (not > 0), everything else valid
and finite, ample geometry. -/
def inC1 : ControlInput := { dt_s := 0, lift_pos_m := mkRat 1 10, env := envCF, rack := rackNoOffset }

/-- C2 counterexample configuration: hard threshold 0.1, warn 0.12. -/
def cfgC2 : ControllerConfig := { hard_threshold_m := mkRat 1 10, warn_threshold_m := mkRat 12 100 }

/-- C2/C6 boundary clearance: 0.0996, inside [hard − ε, hard) = [0.0995, 0.1). -/
def clearC2 : ℚ := mkRat 996 10000

/-- C3 concrete corners (0,0.2), (0,2.2), (2,0.2), (2,2.2) in the fixed
order RearBottom, RearTop, FrontBottom, FrontTop. -/
def cornersC3 : CornerPoints2D :=
  ⟨⟨0, mkRat 2 10⟩, ⟨0, mkRat 22 10⟩, ⟨2, mkRat 2 10⟩, ⟨2, mkRat 22 10⟩⟩

/-- C4 witness configuration: 1-step horizon, zero rate limits and weights,
no look-ahead. -/
def cfgC4 : ControllerConfig :=
  { margin_top_m := 0, margin_bottom_m := 0,
    base_lift_rate_limit_m_s := 0, base_tilt_rate_limit_rad_s := 0,
    w_center := 0, w_dl := 0, w_dt := 0, w_smooth := 0,
    mpc_horizon_steps := 1, mpc_beam_width := 5,
    mpc_assumed_forward_speed_m_s := 0, lookahead_s_m := 0 }

/-- C4 witness input: 1 × 1 rack at lift 0.5 under a 3 m ceiling. -/
def inC4 : ControlInput :=
  { lift_pos_m := mkRat 5 10, env := { ceiling_z_m := some 3, floor_z_m := some 0 },
    rack := { height_m := 1, length_m := 1, mount_offset_m := ⟨0, 0⟩ } }

/-- The (unique) surviving beam node of the C4 witness scenario. -/
def nodeC4 : SeqNode := ⟨0, 0, mkRat 5 10, 0, 0, 0, 0, 0, true, [⟨0, mkRat 5 10, 0, 0⟩]⟩

/-- C4 truncation input: the same rack under a ceiling at 0 — every
expansion is pruned at the first step. -/
def inC4trunc : ControlInput :=
  { lift_pos_m := mkRat 5 10, env := { ceiling_z_m := some 0, floor_z_m := some 0 },
    rack := { height_m := 1, length_m := 1, mount_offset_m := ⟨0, 0⟩ } }

/-- C5 scenario configuration (3×3 grid, collapsed ranges, 1-step MPC). -/
def cfgC5 : ControllerConfig :=
  { grid_lift_steps := 3, grid_tilt_steps := 3,
    search_lift_half_range_m := 0, search_tilt_half_range_rad := 0,
    base_lift_rate_limit_m_s := 0, base_tilt_rate_limit_rad_s := 0,
    mpc_horizon_steps := 1, mpc_beam_width := 5, mpc_assumed_forward_speed_m_s := 0 }

/-- C5 witness input: valid inputs, blocked environment — no feasible
candidate, cycle not degraded. -/
def inC5w : ControlInput := { lift_pos_m := mkRat 1 10, env := envBlocked, rack := rackNoOffset }

/-- C5 counterexample input: invalid inputs AND blocked environment — the
fallback runs but the degraded code wins over NoFeasibleSolution. -/
def inC5c : ControlInput :=
  { inputs_valid := false, lift_pos_m := mkRat 1 10, env := envBlocked, rack := rackNoOffset }

/-- C6 counterexample configuration: hard 0.1, warn 0.12, zero margins,
zero rate limits, 1-step horizon. -/
def cfgC6 : ControllerConfig :=
  { hard_threshold_m := mkRat 1 10, warn_threshold_m := mkRat 12 100,
    margin_top_m := 0, margin_bottom_m := 0,
    base_lift_rate_limit_m_s := 0, base_tilt_rate_limit_rad_s := 0,
    mpc_horizon_steps := 1, mpc_beam_width := 5,
    mpc_assumed_forward_speed_m_s := 0, lookahead_s_m := 0,
    mpc_use_pitch_rate_prediction := 0 }

/-- C6 counterexample input: lift 0.1004 puts the working min clearance at
0.0996, inside [hard − ε, hard). -/
def inC6 : ControlInput := { lift_pos_m := mkRat 1004 10000, env := envCF, rack := rackNoOffset }

/-- C10 witness corners: all four at (0, 1), forcing every tie. -/
def cornersTie : CornerPoints2D := ⟨⟨0, 1⟩, ⟨0, 1⟩, ⟨0, 1⟩, ⟨0, 1⟩⟩

/-- C10 witness environment: ceiling 2, floor 0. -/
def envTie : EnvironmentGeometry := { ceiling_z_m := some 2, floor_z_m := some 0 }

/-! ## Bridges between the executable arithmetic and the field structure of ℚ -/

theorem qmin_eq (a b : ℚ) : qmin a b = min a b := by
  simp only [qmin, min_def]
  rcases le_or_lt a b with h | h
  · rw [if_neg (not_lt_of_le h), if_pos h]
  · rw [if_pos h, if_neg (not_le_of_lt h)]

theorem qmax_eq (a b : ℚ) : qmax a b = max a b := by
  simp only [qmax, max_def]
  rcases lt_trichotomy a b with h | h | h
  · rw [if_pos h, if_pos h.le]
  · subst h
    simp
  · rw [if_neg (lt_asymm h), if_neg (not_le_of_lt h)]

theorem qabs_eq (a : ℚ) : qabs a = |a| := by
  simp only [qabs]
  rcases lt_or_le a 0 with h | h
  · simp [h, abs_of_neg h]
  · simp [not_lt_of_le h, abs_of_nonneg h]

theorem qneg_eq (a : ℚ) : qneg a = -a := by
  rw [qneg, ← Rat.neg_mkRat, Rat.mkRat_self]

theorem qadd_eq (a b : ℚ) : qadd a b = a + b := (Rat.add_def' a b).symm

theorem qsub_eq (a b : ℚ) : qsub a b = a - b := (Rat.sub_def' a b).symm

theorem qmul_eq (a b : ℚ) : qmul a b = a * b := by
  rw [qmul, ← Rat.normalize_eq_mkRat (Nat.mul_ne_zero a.den_nz b.den_nz), ← Rat.mul_def]

theorem qinv_eq (a : ℚ) : qinv a = a⁻¹ := by
  show qinv a = a.inv
  rw [Rat.inv_def]
  rcases lt_trichotomy a.num 0 with h | h | h
  · rw [qinv, if_neg (by omega), if_neg (by omega), qneg_eq, Rat.mkRat_eq_divInt]
    rw [show ((-a.num).toNat : ℤ) = -a.num by omega]
    rw [Rat.neg_divInt, ← Rat.neg_divInt_neg, neg_neg, neg_neg]
  · rw [qinv, if_neg (by omega), if_pos h, h]
    rw [Rat.divInt_zero]
  · rw [qinv, if_pos h, Rat.mkRat_eq_divInt]
    rw [show (a.num.toNat : ℤ) = a.num by omega]

theorem qdiv_eq (a b : ℚ) : qdiv a b = a / b := by
  rw [qdiv, qmul_eq, qinv_eq, div_eq_mul_inv]

/-! ## Safety-level characterisations (shared helpers) -/

theorem grid_makeSafety_level (cfg : ControllerConfig) (t b : ℚ) (w : CornerId)
    (co : SafetyCode) (mo : String) :
    (Controller.makeSafety cfg t b w false co mo).level =
      if min t b < cfg.hard_threshold_m then SafetyLevel.STOP
      else if min t b < cfg.warn_threshold_m then SafetyLevel.WARN
      else SafetyLevel.OK := by
  simp only [Controller.makeSafety, qmin_eq, Bool.false_eq_true, if_false]
  split_ifs <;> rfl

theorem mpc_makeSafety_level (cfg : ControllerConfig) (t b : ℚ) (w : CornerId)
    (co : SafetyCode) (mo : String) :
    (ControllerMPC.makeSafety cfg t b w false co mo).level =
      if min t b < cfg.hard_threshold_m - kClearanceEpsilonM then SafetyLevel.STOP
      else if min t b < cfg.warn_threshold_m then SafetyLevel.WARN
      else SafetyLevel.OK := by
  simp only [ControllerMPC.makeSafety, qmin_eq, qsub_eq, Bool.false_eq_true, if_false]
  split_ifs <;> rfl

theorem grid_makeSafety_stop_iff (cfg : ControllerConfig) (t b : ℚ) (w : CornerId)
    (co : SafetyCode) (mo : String) :
    (Controller.makeSafety cfg t b w false co mo).level = SafetyLevel.STOP ↔
      min t b < cfg.hard_threshold_m := by
  rw [grid_makeSafety_level]
  split_ifs with h1 h2 <;> simp [h1]

theorem mpc_makeSafety_stop_iff (cfg : ControllerConfig) (t b : ℚ) (w : CornerId)
    (co : SafetyCode) (mo : String) :
    (ControllerMPC.makeSafety cfg t b w false co mo).level = SafetyLevel.STOP ↔
      min t b < cfg.hard_threshold_m - kClearanceEpsilonM := by
  rw [mpc_makeSafety_level]
  split_ifs with h1 h2 <;> simp [h1]

/-! ## Clearance-evaluator helpers -/

theorem computeClearances_top_eq (corners : CornerPoints2D) (env : EnvironmentGeometry)
    (mt mb : ℚ) :
    (computeClearances corners env mt mb).clearance_top_m =
      min (envCeilingZAtX env corners.rt.x - corners.rt.z)
        (envCeilingZAtX env corners.ft.x - corners.ft.z) - mt := by
  simp only [computeClearances, qmin_eq, qsub_eq]

theorem computeClearances_bottom_eq (corners : CornerPoints2D) (env : EnvironmentGeometry)
    (mt mb : ℚ) :
    (computeClearances corners env mt mb).clearance_bottom_m =
      min (corners.rb.z - envFloorZAtX env corners.rb.x)
        (corners.fb.z - envFloorZAtX env corners.fb.x) - mb := by
  simp only [computeClearances, qmin_eq, qsub_eq]

theorem envCeilingZAtX_shift (d : ℚ) (env : EnvironmentGeometry) (x : ℚ) :
    envCeilingZAtX (shiftEnv d env) (x + d) = envCeilingZAtX env x := by
  rcases env with ⟨cz, fz, cp, fp, cf, ff⟩
  cases cf with
  | some f => simp [envCeilingZAtX, shiftEnv, shiftHeightFun, add_sub_cancel_right]
  | none =>
    cases cp with
    | none => simp [envCeilingZAtX, shiftEnv]
    | some p =>
      simp only [envCeilingZAtX, shiftEnv, Option.map_some', Option.map_none']
      have hv : (shiftPlane d p).valid = p.valid := rfl
      rw [hv]
      by_cases h : p.valid
      · simp only [h, if_true]
        simp only [Plane.zAtX, shiftPlane, qdiv_eq, qneg_eq, qadd_eq, qmul_eq]
        ring_nf
      · simp [h]

theorem envFloorZAtX_shift (d : ℚ) (env : EnvironmentGeometry) (x : ℚ) :
    envFloorZAtX (shiftEnv d env) (x + d) = envFloorZAtX env x := by
  rcases env with ⟨cz, fz, cp, fp, cf, ff⟩
  cases ff with
  | some f => simp [envFloorZAtX, shiftEnv, shiftHeightFun, add_sub_cancel_right]
  | none =>
    cases fp with
    | none => simp [envFloorZAtX, shiftEnv]
    | some p =>
      simp only [envFloorZAtX, shiftEnv, Option.map_some', Option.map_none']
      have hv : (shiftPlane d p).valid = p.valid := rfl
      rw [hv]
      by_cases h : p.valid
      · simp only [h, if_true]
        simp only [Plane.zAtX, shiftPlane, qdiv_eq, qneg_eq, qadd_eq, qmul_eq]
        ring_nf
      · simp [h]

/-! ## Claim theorems (first group) -/

/-- C1 (code bug): the spec requires a non-positive time step to yield
DEGRADED with code InputInvalid, but `Controller::step` and
`ControllerMPC::step` first replace any `dt_s ≤ 1e-6` by the default 0.02
and only then test `!(dt > 0.0)`, so the test can never fire.  At the
concrete failing input `inC1` (dt_s = 0, valid flag true, all fields
finite) both controllers return WARN, not DEGRADED. -/
theorem claim_C1_dead_dt_check :
    inC1.dt_s = 0 ∧ inC1.inputs_valid = true ∧ finiteAll inC1 = true ∧
    (Controller.step trigAtZero cfgC1 initState inC1).1.safety.level = SafetyLevel.WARN ∧
    (Controller.step trigAtZero cfgC1 initState inC1).1.safety.level ≠ SafetyLevel.DEGRADED ∧
    (ControllerMPC.step trigAtZero cfgC1 initState inC1).1.safety.level = SafetyLevel.WARN ∧
    (ControllerMPC.step trigAtZero cfgC1 initState inC1).1.safety.level ≠ SafetyLevel.DEGRADED := by
  decide

/-- C2 (counterexample): with hard threshold 0.1 and min clearance 0.0996
(inside [hard − ε, hard)), the grid controller classifies STOP while the
MPC controller classifies WARN — the two strategies do not classify
identically, contradicting the claim. -/
theorem claim_C2_counterexample :
    (Controller.makeSafety cfgC2 clearC2 1 CornerId.RearTop false SafetyCode.None "").level =
        SafetyLevel.STOP ∧
    (ControllerMPC.makeSafety cfgC2 clearC2 1 CornerId.RearTop false SafetyCode.None "").level =
        SafetyLevel.WARN := by
  decide

/-- C2 (amended): in a non-degraded cycle both strategies classify from
min(top, bottom), but only the MPC strategy applies the ε = 5e-4 tolerance
to the hard threshold: grid STOP iff min < hard, MPC STOP iff
min < hard − ε; WARN iff below the warn threshold otherwise; OK else.
They agree except when min(top, bottom) lands in [hard − ε, hard). -/
theorem claim_C2_amended (cfg : ControllerConfig) (t b : ℚ) (w : CornerId)
    (co : SafetyCode) (mo : String) :
    kClearanceEpsilonM = 5 / 10000 ∧
    (Controller.makeSafety cfg t b w false co mo).level =
      (if min t b < cfg.hard_threshold_m then SafetyLevel.STOP
       else if min t b < cfg.warn_threshold_m then SafetyLevel.WARN
       else SafetyLevel.OK) ∧
    (ControllerMPC.makeSafety cfg t b w false co mo).level =
      (if min t b < cfg.hard_threshold_m - kClearanceEpsilonM then SafetyLevel.STOP
       else if min t b < cfg.warn_threshold_m then SafetyLevel.WARN
       else SafetyLevel.OK) :=
  ⟨by rw [kClearanceEpsilonM, Rat.mkRat_eq_div]
      norm_num,
    grid_makeSafety_level cfg t b w co mo, mpc_makeSafety_level cfg t b w co mo⟩

/-- C3: the clearance evaluator returns
top = min over {RearTop, FrontTop} of (ceiling-at-x − z) − margin_top and
bottom = min over {RearBottom, FrontBottom} of (z − floor-at-x) −
margin_bottom; at the concrete corners (0,0.2),(0,2.2),(2,0.2),(2,2.2)
with floor 0, ceiling 2.5 and margins 0.1/0.1 the results are exactly 0.2
and 0.1. -/
theorem claim_C3_clearance_arithmetic :
    (∀ (corners : CornerPoints2D) (env : EnvironmentGeometry) (mt mb : ℚ),
      (computeClearances corners env mt mb).clearance_top_m =
        min (envCeilingZAtX env corners.rt.x - corners.rt.z)
          (envCeilingZAtX env corners.ft.x - corners.ft.z) - mt ∧
      (computeClearances corners env mt mb).clearance_bottom_m =
        min (corners.rb.z - envFloorZAtX env corners.rb.x)
          (corners.fb.z - envFloorZAtX env corners.fb.x) - mb) ∧
    (computeClearances cornersC3 envCF (mkRat 1 10) (mkRat 1 10)).clearance_top_m = 2 / 10 ∧
    (computeClearances cornersC3 envCF (mkRat 1 10) (mkRat 1 10)).clearance_bottom_m = 1 / 10 := by
  refine ⟨fun corners env mt mb =>
      ⟨computeClearances_top_eq corners env mt mb, computeClearances_bottom_eq corners env mt mb⟩,
    ?_, ?_⟩
  · rw [show (2 / 10 : ℚ) = mkRat 2 10 by
      rw [Rat.mkRat_eq_div]
      norm_num]
    decide
  · rw [show (1 / 10 : ℚ) = mkRat 1 10 by
      rw [Rat.mkRat_eq_div]
      norm_num]
    decide

/-- C7: a freshly constructed controller and one that has executed any
sequence of step calls followed by reset() produce identical outputs on
the same next input, for both strategies — reset restores the elapsed-time
accumulator and both smoothing rates to their constructed values. -/
theorem claim_C7_reset_equivalence (T : TrigModel) (cfg : ControllerConfig)
    (ins : List ControlInput) (inp : ControlInput) :
    Controller.step T cfg (resetState (Controller.runSteps T cfg initState ins)) inp =
      Controller.step T cfg initState inp ∧
    ControllerMPC.step T cfg (resetState (ControllerMPC.runSteps T cfg initState ins)) inp =
      ControllerMPC.step T cfg initState inp :=
  ⟨rfl, rfl⟩

/-- C8: for fixed clearances in a non-degraded cycle, the classification is
monotone in the hard threshold for both strategies: raising it never turns
STOP into a less conservative level, and lowering it never turns a
non-STOP level into STOP. -/
theorem claim_C8_threshold_monotone (cfg : ControllerConfig) (t b : ℚ) (w : CornerId)
    (co : SafetyCode) (mo : String) (h1 h2 : ℚ) (hle : h1 ≤ h2) :
    ((Controller.makeSafety { cfg with hard_threshold_m := h1 } t b w false co mo).level =
        SafetyLevel.STOP →
      (Controller.makeSafety { cfg with hard_threshold_m := h2 } t b w false co mo).level =
        SafetyLevel.STOP) ∧
    ((Controller.makeSafety { cfg with hard_threshold_m := h2 } t b w false co mo).level ≠
        SafetyLevel.STOP →
      (Controller.makeSafety { cfg with hard_threshold_m := h1 } t b w false co mo).level ≠
        SafetyLevel.STOP) ∧
    ((ControllerMPC.makeSafety { cfg with hard_threshold_m := h1 } t b w false co mo).level =
        SafetyLevel.STOP →
      (ControllerMPC.makeSafety { cfg with hard_threshold_m := h2 } t b w false co mo).level =
        SafetyLevel.STOP) ∧
    ((ControllerMPC.makeSafety { cfg with hard_threshold_m := h2 } t b w false co mo).level ≠
        SafetyLevel.STOP →
      (ControllerMPC.makeSafety { cfg with hard_threshold_m := h1 } t b w false co mo).level ≠
        SafetyLevel.STOP) := by
  have g1 := grid_makeSafety_stop_iff { cfg with hard_threshold_m := h1 } t b w co mo
  have g2 := grid_makeSafety_stop_iff { cfg with hard_threshold_m := h2 } t b w co mo
  have m1 := mpc_makeSafety_stop_iff { cfg with hard_threshold_m := h1 } t b w co mo
  have m2 := mpc_makeSafety_stop_iff { cfg with hard_threshold_m := h2 } t b w co mo
  refine ⟨?_, ?_, ?_, ?_⟩
  · intro h
    exact g2.mpr (lt_of_lt_of_le (g1.mp h) hle)
  · intro h hstop
    exact h (g2.mpr (lt_of_lt_of_le (g1.mp hstop) hle))
  · intro h
    exact m2.mpr (lt_of_lt_of_le (m1.mp h) (by linarith))
  · intro h hstop
    exact h (m2.mpr (lt_of_lt_of_le (m1.mp hstop) (by linarith)))

/-- Witness for C8 at h1 = 0.1 ≤ h2 = 0.2, clearances 0.05/1 (STOP at h1). -/
theorem claim_C8_threshold_monotone_witness :
    (Controller.makeSafety { cfgC2 with hard_threshold_m := mkRat 2 10 } (mkRat 5 100) 1
        CornerId.RearTop false SafetyCode.None "").level = SafetyLevel.STOP ∧
    (ControllerMPC.makeSafety { cfgC2 with hard_threshold_m := mkRat 2 10 } (mkRat 5 100) 1
        CornerId.RearTop false SafetyCode.None "").level = SafetyLevel.STOP :=
  ⟨(claim_C8_threshold_monotone cfgC2 (mkRat 5 100) 1 CornerId.RearTop SafetyCode.None ""
      (mkRat 1 10) (mkRat 2 10) (by decide)).1 (by decide),
    (claim_C8_threshold_monotone cfgC2 (mkRat 5 100) 1 CornerId.RearTop SafetyCode.None ""
      (mkRat 1 10) (mkRat 2 10) (by decide)).2.2.1 (by decide)⟩

/-- C9: translating every corner x by Δ and shifting the environment by
the same Δ (constants unchanged, planes and height functions translated)
leaves the whole clearance result unchanged. -/
theorem claim_C9_translation_invariance (d : ℚ) (corners : CornerPoints2D)
    (env : EnvironmentGeometry) (mt mb : ℚ) :
    computeClearances (shiftCorners d corners) (shiftEnv d env) mt mb =
      computeClearances corners env mt mb := by
  simp only [computeClearances, shiftCorners]
  simp only [envCeilingZAtX_shift, envFloorZAtX_shift]

/-- C10 (implicit tie-breaking of computeClearances): when net top and
bottom clearances are equal the overall worst corner is the bottom
group's corner (top wins only on strict <); within each group the first
corner in scan order (RearTop resp. RearBottom) wins ties. -/
theorem claim_C10_tie_breaking (corners : CornerPoints2D) (env : EnvironmentGeometry)
    (mt mb : ℚ) :
    ((computeClearances corners env mt mb).clearance_top_m =
        (computeClearances corners env mt mb).clearance_bottom_m →
      (computeClearances corners env mt mb).worst_point =
        (computeClearances corners env mt mb).bottom_worst_point) ∧
    (qsub (envCeilingZAtX env corners.ft.x) corners.ft.z =
        qsub (envCeilingZAtX env corners.rt.x) corners.rt.z →
      (computeClearances corners env mt mb).top_worst_point = CornerId.RearTop) ∧
    (qsub corners.fb.z (envFloorZAtX env corners.fb.x) =
        qsub corners.rb.z (envFloorZAtX env corners.rb.x) →
      (computeClearances corners env mt mb).bottom_worst_point = CornerId.RearBottom) := by
  refine ⟨?_, ?_, ?_⟩
  · intro h
    simp only [computeClearances] at h ⊢
    rw [h, if_neg (lt_irrefl _)]
  · intro h
    simp only [computeClearances]
    rw [h, if_neg (lt_irrefl _)]
  · intro h
    simp only [computeClearances]
    rw [h, if_neg (lt_irrefl _)]

theorem mkRat_two_tenths : (mkRat 2 10 : ℚ) = 2 / 10 := by
  rw [Rat.mkRat_eq_div]
  norm_num

theorem grid_speedLimit_eq (cfg : ControllerConfig) (mult pr mcl : ℚ) :
    Controller.speedLimit cfg mult pr mcl =
      (if mcl < cfg.hard_threshold_m then 0
       else
         max (cfg.base_speed_limit_m_s * mult *
             min (clampR (mcl / cfg.warn_threshold_m) 0 1)
               (clampR (1 - |pr| / (2 * cfg.pitch_rate_jitter_threshold_rad_s)) (2 / 10) 1))
           (cfg.min_speed_limit_m_s * mult *
             clampR (1 - |pr| / (2 * cfg.pitch_rate_jitter_threshold_rad_s)) (2 / 10) 1)) := by
  simp only [Controller.speedLimit, clamp, clampR, qdiv_eq, qabs_eq, qmin_eq, qmax_eq,
    qmul_eq, qsub_eq, mkRat_two_tenths]
  rcases lt_or_le mcl cfg.hard_threshold_m with h | h
  · rw [if_neg (not_le_of_lt h), if_pos h]
  · rw [if_pos h, if_neg (not_lt_of_le h)]

theorem mpc_speedLimit_eq (cfg : ControllerConfig) (mult pr mcl : ℚ) :
    ControllerMPC.speedLimit cfg mult pr mcl =
      (if mcl < cfg.hard_threshold_m - kClearanceEpsilonM then 0
       else
         max (cfg.base_speed_limit_m_s * mult *
             min (clampR (mcl / cfg.warn_threshold_m) 0 1)
               (clampR (1 - |pr| / (2 * cfg.pitch_rate_jitter_threshold_rad_s)) (2 / 10) 1))
           (cfg.min_speed_limit_m_s * mult *
             clampR (1 - |pr| / (2 * cfg.pitch_rate_jitter_threshold_rad_s)) (2 / 10) 1)) := by
  simp only [ControllerMPC.speedLimit, clamp, clampR, qdiv_eq, qabs_eq, qmin_eq, qmax_eq,
    qmul_eq, qsub_eq, mkRat_two_tenths]
  rcases lt_or_le mcl (cfg.hard_threshold_m - kClearanceEpsilonM) with h | h
  · rw [if_neg (not_le_of_lt h), if_pos h]
  · rw [if_pos h, if_neg (not_lt_of_le h)]

/-- C6 (counterexample): at input `inC6` the current-cycle working min
clearance (0.0996) is below the hard threshold (0.1), yet the MPC
controller commands speed 0.83, not 0 — its zero-forcing boundary is
hard − ε, not hard, so the claim "the speed is forced to 0 whenever
min_clear < hard_threshold" fails for the MPC strategy. -/
theorem claim_C6_counterexample :
    qmin (workingTop trigAtZero cfgC6 inC6) (workingBottom trigAtZero cfgC6 inC6) <
      cfgC6.hard_threshold_m ∧
    (ControllerMPC.step trigAtZero cfgC6 initState inC6).1.cmd.speed_limit_m_s = mkRat 83 100 ∧
    (ControllerMPC.step trigAtZero cfgC6 initState inC6).1.cmd.speed_limit_m_s ≠ 0 := by
  decide

/-- C6 (amended): both controllers compute the speed limit from the
current-cycle working clearance as base_speed × mult × min(clamp(min/warn,
0, 1), clamp(1 − |pitch_rate|/(2·jitter), 0.2, 1)), floored at the creep
speed scaled by mult and the pitch factor; but the zero-forcing boundary
is min_clear < hard for the grid strategy and min_clear < hard − 5e-4 for
the MPC strategy. -/
theorem claim_C6_speed_policy :
    (∀ (cfg : ControllerConfig) (mult pr mcl : ℚ),
      Controller.speedLimit cfg mult pr mcl =
        (if mcl < cfg.hard_threshold_m then 0
         else
           max (cfg.base_speed_limit_m_s * mult *
               min (clampR (mcl / cfg.warn_threshold_m) 0 1)
                 (clampR (1 - |pr| / (2 * cfg.pitch_rate_jitter_threshold_rad_s)) (2 / 10) 1))
             (cfg.min_speed_limit_m_s * mult *
               clampR (1 - |pr| / (2 * cfg.pitch_rate_jitter_threshold_rad_s)) (2 / 10) 1)) ∧
      ControllerMPC.speedLimit cfg mult pr mcl =
        (if mcl < cfg.hard_threshold_m - kClearanceEpsilonM then 0
         else
           max (cfg.base_speed_limit_m_s * mult *
               min (clampR (mcl / cfg.warn_threshold_m) 0 1)
                 (clampR (1 - |pr| / (2 * cfg.pitch_rate_jitter_threshold_rad_s)) (2 / 10) 1))
             (cfg.min_speed_limit_m_s * mult *
               clampR (1 - |pr| / (2 * cfg.pitch_rate_jitter_threshold_rad_s)) (2 / 10) 1))) ∧
    (∀ (T : TrigModel) (cfg : ControllerConfig) (st : CState) (inp : ControlInput),
      (Controller.step T cfg st inp).1.cmd.speed_limit_m_s =
        Controller.speedLimit cfg (speedMultOf cfg inp) inp.pitch_rate_rad_s
          (qmin (workingTop T cfg inp) (workingBottom T cfg inp)) ∧
      (ControllerMPC.step T cfg st inp).1.cmd.speed_limit_m_s =
        ControllerMPC.speedLimit cfg (speedMultOf cfg inp) inp.pitch_rate_rad_s
          (qmin (workingTop T cfg inp) (workingBottom T cfg inp))) :=
  ⟨fun cfg mult pr mcl => ⟨grid_speedLimit_eq cfg mult pr mcl, mpc_speedLimit_eq cfg mult pr mcl⟩,
    fun _ _ _ _ => ⟨rfl, rfl⟩⟩

/-! ## Grid-scan fold lemmas (shared helpers for C5) -/

theorem gridPoints_ne_nil (nL nT : ℕ) (hL : 0 < nL) (hT : 0 < nT) : gridPoints nL nT ≠ [] := by
  intro h
  have hm : (0, 0) ∈ gridPoints nL nT := by
    unfold gridPoints
    rw [List.mem_flatMap]
    exact ⟨0, List.mem_range.mpr hL, List.mem_map.mpr ⟨0, List.mem_range.mpr hT, rfl⟩⟩
  rw [h] at hm
  exact List.not_mem_nil _ hm

theorem candList_ne_nil (G : GridCtx) : Controller.candList G ≠ [] := by
  unfold Controller.candList
  intro h
  exact gridPoints_ne_nil _ _ (lt_of_lt_of_le (by norm_num) (Nat.le_max_left 3 _))
    (lt_of_lt_of_le (by norm_num) (Nat.le_max_left 3 _)) (List.map_eq_nil_iff.mp h)

theorem fbStep_cases (acc : GridFallback) (c : CandEval) :
    fbStep acc c = acc ∨ fbStep acc c = ⟨some c.min_clear, c.lift, c.tilt, c.clr⟩ := by
  unfold fbStep
  split_ifs <;> simp

theorem fbStep_min_clear_ge (acc : GridFallback) (c : CandEval) :
    ∃ m, (fbStep acc c).min_clear = some m ∧ c.min_clear ≤ m := by
  obtain ⟨mc, l, t, r⟩ := acc
  cases mc with
  | none => exact ⟨c.min_clear, rfl, le_refl _⟩
  | some m =>
    by_cases hgt : c.min_clear > m
    · refine ⟨c.min_clear, ?_, le_refl _⟩
      simp [fbStep, clearGT, hgt]
    · refine ⟨m, ?_, le_of_not_lt hgt⟩
      simp [fbStep, clearGT, hgt]

theorem fbStep_mono (acc : GridFallback) (c : CandEval) (x : ℚ)
    (hx : ∃ m, acc.min_clear = some m ∧ x ≤ m) :
    ∃ m, (fbStep acc c).min_clear = some m ∧ x ≤ m := by
  obtain ⟨m, hm, hle⟩ := hx
  obtain ⟨mc, l, t, r⟩ := acc
  simp only at hm
  subst hm
  by_cases hgt : c.min_clear > m
  · refine ⟨c.min_clear, ?_, le_trans hle (le_of_lt hgt)⟩
    simp [fbStep, clearGT, hgt]
  · refine ⟨m, ?_, hle⟩
    simp [fbStep, clearGT, hgt]

theorem fbFold_go (l : List CandEval) (acc : GridFallback) :
    (l.foldl fbStep acc = acc ∨
      ∃ c ∈ l, l.foldl fbStep acc = ⟨some c.min_clear, c.lift, c.tilt, c.clr⟩) ∧
    (∀ c ∈ l, ∃ m, (l.foldl fbStep acc).min_clear = some m ∧ c.min_clear ≤ m) ∧
    (∀ x, (∃ m, acc.min_clear = some m ∧ x ≤ m) →
      ∃ m, (l.foldl fbStep acc).min_clear = some m ∧ x ≤ m) := by
  induction l generalizing acc with
  | nil => simp
  | cons c l ih =>
    obtain ⟨ih1, ih2, ih3⟩ := ih (fbStep acc c)
    rw [List.foldl_cons]
    refine ⟨?_, ?_, ?_⟩
    · rcases ih1 with h | ⟨c', hc', h⟩
      · rcases fbStep_cases acc c with h2 | h2
        · left
          rw [h, h2]
        · right
          exact ⟨c, List.mem_cons_self c l, by rw [h, h2]⟩
      · right
        exact ⟨c', List.mem_cons_of_mem _ hc', h⟩
    · intro c' hc'
      rcases List.mem_cons.mp hc' with rfl | hmem
      · exact ih3 c'.min_clear (fbStep_min_clear_ge acc c')
      · exact ih2 c' hmem
    · intro x hx
      exact ih3 x (fbStep_mono acc c x hx)

/-- The fallback candidate of the grid scan is a scanned candidate that
maximises the min working clearance over the whole grid. -/
theorem fbFold_spec (G : GridCtx) :
    ∃ c ∈ Controller.candList G,
      (Controller.fbFold G).min_clear = some c.min_clear ∧
      (Controller.fbFold G).lift = c.lift ∧ (Controller.fbFold G).tilt = c.tilt ∧
      ∀ c' ∈ Controller.candList G, c'.min_clear ≤ c.min_clear := by
  obtain ⟨h1, h2, _⟩ := fbFold_go (Controller.candList G) (Controller.fbInit G)
  rcases h1 with h | ⟨c, hc, h⟩
  · exfalso
    obtain ⟨c0, hc0⟩ := List.exists_mem_of_ne_nil _ (candList_ne_nil G)
    obtain ⟨m, hm, _⟩ := h2 c0 hc0
    rw [show (Controller.candList G).foldl fbStep (Controller.fbInit G) = Controller.fbFold G from rfl] at hm
    rw [show Controller.fbFold G = Controller.fbInit G from h] at hm
    exact Option.noConfusion hm
  · refine ⟨c, hc, ?_, ?_, ?_, ?_⟩
    · rw [show Controller.fbFold G = _ from h]
    · rw [show Controller.fbFold G = _ from h]
    · rw [show Controller.fbFold G = _ from h]
    · intro c' hc'
      obtain ⟨m, hm, hle⟩ := h2 c' hc'
      rw [show (Controller.candList G).foldl fbStep (Controller.fbInit G) = Controller.fbFold G from rfl,
        show Controller.fbFold G = _ from h] at hm
      cases hm
      exact hle

theorem bestStep_cases (acc : GridBest) (c : CandEval) :
    bestStep acc c = acc ∨
      (c.feasible = true ∧ bestStep acc c = ⟨true, some c.cost, c.lift, c.tilt, c.clr⟩) := by
  unfold bestStep
  split_ifs with h
  · right
    exact ⟨(Bool.and_eq_true _ _ |>.mp h).1, rfl⟩
  · left
    rfl

theorem bestStep_link (acc : GridBest) (c : CandEval)
    (hlink : acc.feasible = false ↔ acc.cost = none) :
    ((bestStep acc c).feasible = false ↔ (bestStep acc c).cost = none) := by
  rcases bestStep_cases acc c with h | ⟨_, h⟩
  · rw [h]
    exact hlink
  · rw [h]
    simp

theorem bestStep_feasible_iff (acc : GridBest) (c : CandEval)
    (hlink : acc.feasible = false ↔ acc.cost = none) :
    ((bestStep acc c).feasible = true ↔ (acc.feasible = true ∨ c.feasible = true)) := by
  unfold bestStep
  by_cases h : (c.feasible && costLT c.cost acc.cost) = true
  · rw [if_pos h]
    simp [(Bool.and_eq_true _ _ |>.mp h).1]
  · rw [if_neg h]
    rcases Bool.and_eq_false_iff.mp (Bool.not_eq_true _ |>.mp h) with hf | hclt
    · simp [hf]
    · have hcost : ∃ b, acc.cost = some b := by
        cases hc : acc.cost with
        | none =>
          rw [hc] at hclt
          simp [costLT] at hclt
        | some b => exact ⟨b, rfl⟩
      obtain ⟨b, hb⟩ := hcost
      have : acc.feasible = true := by
        by_contra hne
        have := hlink.mp (Bool.not_eq_true _ |>.mp hne)
        rw [hb] at this
        exact Option.noConfusion this
      simp [this]

theorem bestStep_le_feasible (acc : GridBest) (c : CandEval) (hc : c.feasible = true) :
    ∃ b, (bestStep acc c).cost = some b ∧ b ≤ c.cost := by
  unfold bestStep
  by_cases h : (c.feasible && costLT c.cost acc.cost) = true
  · rw [if_pos h]
    exact ⟨c.cost, rfl, le_refl _⟩
  · rw [if_neg h]
    rcases Bool.and_eq_false_iff.mp (Bool.not_eq_true _ |>.mp h) with hf | hclt
    · rw [hc] at hf
      exact Bool.noConfusion hf
    · cases hb : acc.cost with
      | none =>
        rw [hb] at hclt
        simp [costLT] at hclt
      | some b =>
        refine ⟨b, rfl, ?_⟩
        rw [hb] at hclt
        simp only [costLT, decide_eq_false_iff_not] at hclt
        exact le_of_not_lt hclt

theorem bestStep_cost_mono (acc : GridBest) (c : CandEval) (b : ℚ) (hb : acc.cost = some b) :
    ∃ b', (bestStep acc c).cost = some b' ∧ b' ≤ b := by
  unfold bestStep
  by_cases h : (c.feasible && costLT c.cost acc.cost) = true
  · rw [if_pos h]
    refine ⟨c.cost, rfl, ?_⟩
    have := (Bool.and_eq_true _ _ |>.mp h).2
    rw [hb] at this
    simp only [costLT, decide_eq_true_eq] at this
    exact le_of_lt this
  · rw [if_neg h]
    exact ⟨b, hb, le_refl _⟩

theorem bestFold_go (l : List CandEval) (acc : GridBest)
    (hlink : acc.feasible = false ↔ acc.cost = none) :
    (l.foldl bestStep acc = acc ∨
      ∃ c ∈ l, c.feasible = true ∧
        l.foldl bestStep acc = ⟨true, some c.cost, c.lift, c.tilt, c.clr⟩) ∧
    ((l.foldl bestStep acc).feasible = false ↔ (l.foldl bestStep acc).cost = none) ∧
    ((l.foldl bestStep acc).feasible = true ↔
      (acc.feasible = true ∨ ∃ c ∈ l, c.feasible = true)) ∧
    (∀ c ∈ l, c.feasible = true →
      ∃ b, (l.foldl bestStep acc).cost = some b ∧ b ≤ c.cost) ∧
    (∀ b, acc.cost = some b →
      ∃ b', (l.foldl bestStep acc).cost = some b' ∧ b' ≤ b) := by
  induction l generalizing acc with
  | nil =>
    refine ⟨Or.inl rfl, hlink, by simp, by simp, fun b hb => ⟨b, hb, le_refl b⟩⟩
  | cons c l ih =>
    obtain ⟨ih1, ih2, ih3, ih4, ih5⟩ := ih (bestStep acc c) (bestStep_link acc c hlink)
    rw [List.foldl_cons]
    refine ⟨?_, ih2, ?_, ?_, ?_⟩
    · rcases ih1 with h | ⟨c', hc', hf', h⟩
      · rcases bestStep_cases acc c with h2 | ⟨hf2, h2⟩
        · left
          rw [h, h2]
        · right
          exact ⟨c, List.mem_cons_self c l, hf2, by rw [h, h2]⟩
      · right
        exact ⟨c', List.mem_cons_of_mem _ hc', hf', h⟩
    · rw [ih3, bestStep_feasible_iff acc c hlink]
      constructor
      · rintro ((h | h) | ⟨c', hc', hf'⟩)
        · exact Or.inl h
        · exact Or.inr ⟨c, List.mem_cons_self c l, h⟩
        · exact Or.inr ⟨c', List.mem_cons_of_mem _ hc', hf'⟩
      · rintro (h | ⟨c', hc', hf'⟩)
        · exact Or.inl (Or.inl h)
        · rcases List.mem_cons.mp hc' with rfl | hmem
          · exact Or.inl (Or.inr hf')
          · exact Or.inr ⟨c', hmem, hf'⟩
    · intro c' hc' hf'
      rcases List.mem_cons.mp hc' with rfl | hmem
      · obtain ⟨b, hb, hle⟩ := bestStep_le_feasible acc c' hf'
        obtain ⟨b', hb', hle'⟩ := ih5 b hb
        exact ⟨b', hb', le_trans hle' hle⟩
      · exact ih4 c' hmem hf'
    · intro b hb
      obtain ⟨b2, hb2, hle2⟩ := bestStep_cost_mono acc c b hb
      obtain ⟨b', hb', hle'⟩ := ih5 b2 hb2
      exact ⟨b', hb', le_trans hle' hle2⟩

/-- The grid scan's `best` accumulator: the feasibility flag is set iff a
feasible candidate exists, and in that case the tracked candidate is a
feasible candidate of minimum cost. -/
theorem bestFold_spec (G : GridCtx) :
    ((Controller.bestFold G).feasible = true ↔
      ∃ c ∈ Controller.candList G, c.feasible = true) ∧
    ((Controller.bestFold G).feasible = true →
      ∃ c ∈ Controller.candList G, c.feasible = true ∧
        (Controller.bestFold G).lift = c.lift ∧ (Controller.bestFold G).tilt = c.tilt ∧
        ∀ c' ∈ Controller.candList G, c'.feasible = true → c.cost ≤ c'.cost) := by
  obtain ⟨h1, _, h3, h4, _⟩ :=
    bestFold_go (Controller.candList G) (Controller.bestInit G) (by simp [Controller.bestInit])
  constructor
  · rw [show (Controller.candList G).foldl bestStep (Controller.bestInit G) =
        Controller.bestFold G from rfl] at h3
    rw [h3]
    simp [Controller.bestInit]
  · intro hf
    rcases h1 with h | ⟨c, hc, hcf, h⟩
    · exfalso
      have hh : Controller.bestFold G = Controller.bestInit G := h
      rw [hh] at hf
      simp [Controller.bestInit] at hf
    · refine ⟨c, hc, hcf, ?_, ?_, ?_⟩
      · rw [show Controller.bestFold G = _ from h]
      · rw [show Controller.bestFold G = _ from h]
      · intro c' hc' hcf'
        obtain ⟨b, hb, hle⟩ := h4 c' hc' hcf'
        rw [show (Controller.candList G).foldl bestStep (Controller.bestInit G) =
            Controller.bestFold G from rfl, show Controller.bestFold G = _ from h] at hb
        cases hb
        exact hle

theorem grid_makeSafety_code_override (cfg : ControllerConfig) (t b : ℚ) (w : CornerId)
    (co : SafetyCode) (mo : String) (hco : co ≠ SafetyCode.None) :
    (Controller.makeSafety cfg t b w false co mo).code = co := by
  simp only [Controller.makeSafety, Bool.false_eq_true, if_false]
  split_ifs <;> simp [hco]

theorem mpc_makeSafety_code_override (cfg : ControllerConfig) (t b : ℚ) (w : CornerId)
    (co : SafetyCode) (mo : String) (hco : co ≠ SafetyCode.None) :
    (ControllerMPC.makeSafety cfg t b w false co mo).code = co := by
  simp only [ControllerMPC.makeSafety, Bool.false_eq_true, if_false]
  split_ifs <;> simp [hco]

theorem grid_step_code_infeasible (T : TrigModel) (cfg : ControllerConfig) (st : CState)
    (inp : ControlInput)
    (hfeas : (Controller.bestFold (Controller.mkCtx T cfg st inp)).feasible = false)
    (hdeg : isDegraded cfg inp = false) :
    (Controller.step T cfg st inp).1.safety.code = SafetyCode.NoFeasibleSolution := by
  simp only [Controller.step, hfeas, hdeg, Bool.false_eq_true, if_false]
  exact grid_makeSafety_code_override cfg _ _ _ _ _ (by simp)

theorem mpc_step_code_infeasible (T : TrigModel) (cfg : ControllerConfig) (st : CState)
    (inp : ControlInput)
    (hch : ControllerMPC.chosenNode T cfg inp st = none)
    (hdeg : isDegraded cfg inp = false) :
    (ControllerMPC.step T cfg st inp).1.safety.code = SafetyCode.NoFeasibleSolution := by
  simp only [ControllerMPC.step, hch, hdeg, Bool.false_eq_true, if_false, Option.isSome_none]
  exact mpc_makeSafety_code_override cfg _ _ _ _ _ (by simp)

theorem fbEval_eq_evalCand (T : TrigModel) (cfg : ControllerConfig) (inp : ControlInput)
    (mt mb d plr ptr : ℚ) (ij : ℕ × ℕ) :
    ControllerMPC.fbEval T cfg inp mt mb ij =
      ((Controller.evalCand ⟨T, cfg, inp, d, mt, mb, plr, ptr⟩ ij).min_clear,
        (Controller.evalCand ⟨T, cfg, inp, d, mt, mb, plr, ptr⟩ ij).lift,
        (Controller.evalCand ⟨T, cfg, inp, d, mt, mb, plr, ptr⟩ ij).tilt) := by
  simp only [ControllerMPC.fbEval, Controller.evalCand, lerp]
  by_cases h : cfg.lookahead_s_m > mkRat 1 1000000000 <;> simp [h]

theorem fb_fold_rel (pts : List (ℕ × ℕ)) (G : GridCtx) (acc1 : Option ℚ × ℚ × ℚ)
    (acc2 : GridFallback) (h1 : acc1.1 = acc2.min_clear) (h2 : acc1.2.1 = acc2.lift)
    (h3 : acc1.2.2 = acc2.tilt) :
    pts.foldl
        (fun a ij =>
          ControllerMPC.fbAccStep a
            (ControllerMPC.fbEval G.T G.cfg G.inp G.margin_top G.margin_bottom ij))
        acc1 =
      ((pts.foldl (fun a ij => fbStep a (Controller.evalCand G ij)) acc2).min_clear,
        (pts.foldl (fun a ij => fbStep a (Controller.evalCand G ij)) acc2).lift,
        (pts.foldl (fun a ij => fbStep a (Controller.evalCand G ij)) acc2).tilt) := by
  induction pts generalizing acc1 acc2 with
  | nil =>
    rw [List.foldl_nil, List.foldl_nil]
    obtain ⟨a, b, c⟩ := acc1
    simp only at h1 h2 h3
    rw [h1, h2, h3]
  | cons ij pts ih =>
    rw [List.foldl_cons, List.foldl_cons]
    apply ih
    · rw [fbEval_eq_evalCand G.T G.cfg G.inp G.margin_top G.margin_bottom G.dt
        G.prev_lift_rate G.prev_tilt_rate ij]
      simp only [ControllerMPC.fbAccStep, fbStep, h1]
      split_ifs <;> simp [h1]
    · rw [fbEval_eq_evalCand G.T G.cfg G.inp G.margin_top G.margin_bottom G.dt
        G.prev_lift_rate G.prev_tilt_rate ij]
      simp only [ControllerMPC.fbAccStep, fbStep, h1]
      split_ifs <;> simp [h2]
    · rw [fbEval_eq_evalCand G.T G.cfg G.inp G.margin_top G.margin_bottom G.dt
        G.prev_lift_rate G.prev_tilt_rate ij]
      simp only [ControllerMPC.fbAccStep, fbStep, h1]
      split_ifs <;> simp [h3]

/-- The MPC fallback search is the same computation as the grid scan's
fallback accumulator: same grid, same lerp, same look-ahead combination,
same strict-improvement update. -/
theorem fbSearch_eq_fbFold (T : TrigModel) (cfg : ControllerConfig) (st : CState)
    (inp : ControlInput) :
    ControllerMPC.fbSearch T cfg inp (marginTopOf cfg inp) (marginBottomOf cfg inp) =
      ((Controller.fbFold (Controller.mkCtx T cfg st inp)).min_clear,
        (Controller.fbFold (Controller.mkCtx T cfg st inp)).lift,
        (Controller.fbFold (Controller.mkCtx T cfg st inp)).tilt) := by
  unfold ControllerMPC.fbSearch Controller.fbFold Controller.candList
  rw [List.foldl_map, List.foldl_map]
  exact fb_fold_rel _ (Controller.mkCtx T cfg st inp) _ _ rfl rfl rfl

/-- C5 (counterexample): on a degraded cycle with no feasible candidate the
grid controller still commands the fallback with feasibility flag false,
but the attached diagnostic is the degradation code (InputInvalid), not
NoFeasibleSolution — the claim's "attaches diagnostic NoFeasibleSolution"
does not hold for every input. -/
theorem claim_C5_counterexample :
    (Controller.step trigAtZero cfgC5 initState inC5c).1.had_feasible_solution = false ∧
    (Controller.step trigAtZero cfgC5 initState inC5c).1.safety.code = SafetyCode.InputInvalid ∧
    (Controller.step trigAtZero cfgC5 initState inC5c).1.safety.code ≠
      SafetyCode.NoFeasibleSolution := by
  decide

/-- C5 (amended): the grid controller always produces a command — if some
grid candidate is feasible it commands a minimum-cost feasible candidate
with feasibility flag true; otherwise it commands a candidate maximising
the min working clearance over the same grid with flag false, and, when
the cycle is not degraded, diagnostic NoFeasibleSolution (a degraded cycle
reports its degradation code instead).  The MPC controller falls back to
the identical grid fallback (same candidate) when no beam sequence
survives, with the same flag and diagnostic behaviour. -/
theorem claim_C5_fallback_policy (T : TrigModel) (cfg : ControllerConfig) (st : CState)
    (inp : ControlInput) :
    ((∃ c ∈ Controller.candList (Controller.mkCtx T cfg st inp), c.feasible = true) →
      (Controller.step T cfg st inp).1.had_feasible_solution = true ∧
      ∃ c ∈ Controller.candList (Controller.mkCtx T cfg st inp), c.feasible = true ∧
        (Controller.step T cfg st inp).1.cmd.lift_target_m = c.lift ∧
        (Controller.step T cfg st inp).1.cmd.tilt_target_rad = c.tilt ∧
        ∀ c' ∈ Controller.candList (Controller.mkCtx T cfg st inp),
          c'.feasible = true → c.cost ≤ c'.cost) ∧
    ((¬ ∃ c ∈ Controller.candList (Controller.mkCtx T cfg st inp), c.feasible = true) →
      (Controller.step T cfg st inp).1.had_feasible_solution = false ∧
      (∃ c ∈ Controller.candList (Controller.mkCtx T cfg st inp),
        (Controller.step T cfg st inp).1.cmd.lift_target_m = c.lift ∧
        (Controller.step T cfg st inp).1.cmd.tilt_target_rad = c.tilt ∧
        ∀ c' ∈ Controller.candList (Controller.mkCtx T cfg st inp),
          c'.min_clear ≤ c.min_clear) ∧
      (isDegraded cfg inp = false →
        (Controller.step T cfg st inp).1.safety.code = SafetyCode.NoFeasibleSolution)) ∧
    (ControllerMPC.chosenNode T cfg inp st = none →
      (ControllerMPC.step T cfg st inp).1.cmd.lift_target_m =
        (Controller.fbFold (Controller.mkCtx T cfg st inp)).lift ∧
      (ControllerMPC.step T cfg st inp).1.cmd.tilt_target_rad =
        (Controller.fbFold (Controller.mkCtx T cfg st inp)).tilt ∧
      (ControllerMPC.step T cfg st inp).1.had_feasible_solution = false ∧
      (isDegraded cfg inp = false →
        (ControllerMPC.step T cfg st inp).1.safety.code = SafetyCode.NoFeasibleSolution)) := by
  have hhad : (Controller.step T cfg st inp).1.had_feasible_solution =
      (Controller.bestFold (Controller.mkCtx T cfg st inp)).feasible := rfl
  have hlift : (Controller.step T cfg st inp).1.cmd.lift_target_m =
      (if (Controller.bestFold (Controller.mkCtx T cfg st inp)).feasible then
        (Controller.bestFold (Controller.mkCtx T cfg st inp)).lift
      else (Controller.fbFold (Controller.mkCtx T cfg st inp)).lift) := rfl
  have htilt : (Controller.step T cfg st inp).1.cmd.tilt_target_rad =
      (if (Controller.bestFold (Controller.mkCtx T cfg st inp)).feasible then
        (Controller.bestFold (Controller.mkCtx T cfg st inp)).tilt
      else (Controller.fbFold (Controller.mkCtx T cfg st inp)).tilt) := rfl
  refine ⟨?_, ?_, ?_⟩
  · intro hex
    have hfeas := (bestFold_spec (Controller.mkCtx T cfg st inp)).1.mpr hex
    obtain ⟨c, hc, hcf, hl, ht, hmin⟩ :=
      (bestFold_spec (Controller.mkCtx T cfg st inp)).2 hfeas
    refine ⟨by rw [hhad, hfeas], c, hc, hcf, ?_, ?_, hmin⟩
    · rw [hlift, hfeas, if_pos rfl]
      exact hl
    · rw [htilt, hfeas, if_pos rfl]
      exact ht
  · intro hnex
    have hfeas : (Controller.bestFold (Controller.mkCtx T cfg st inp)).feasible = false := by
      rcases Bool.eq_false_or_eq_true
          (Controller.bestFold (Controller.mkCtx T cfg st inp)).feasible with h | h
      · exact absurd ((bestFold_spec (Controller.mkCtx T cfg st inp)).1.mp h) hnex
      · exact h
    obtain ⟨c, hc, _, hl, ht, hmax⟩ := fbFold_spec (Controller.mkCtx T cfg st inp)
    refine ⟨by rw [hhad, hfeas], ⟨c, hc, ?_, ?_, hmax⟩,
      fun hdeg => grid_step_code_infeasible T cfg st inp hfeas hdeg⟩
    · rw [hlift, hfeas, if_neg (by simp)]
      exact hl
    · rw [htilt, hfeas, if_neg (by simp)]
      exact ht
  · intro hch
    have hl : (ControllerMPC.step T cfg st inp).1.cmd.lift_target_m =
        (ControllerMPC.fbSearch T cfg inp (marginTopOf cfg inp) (marginBottomOf cfg inp)).2.1 := by
      simp only [ControllerMPC.step, hch]
    have ht : (ControllerMPC.step T cfg st inp).1.cmd.tilt_target_rad =
        (ControllerMPC.fbSearch T cfg inp (marginTopOf cfg inp) (marginBottomOf cfg inp)).2.2 := by
      simp only [ControllerMPC.step, hch]
    have hhad2 : (ControllerMPC.step T cfg st inp).1.had_feasible_solution = false := by
      simp only [ControllerMPC.step, hch, Option.isSome_none]
    refine ⟨?_, ?_, hhad2, fun hdeg => mpc_step_code_infeasible T cfg st inp hch hdeg⟩
    · rw [hl, fbSearch_eq_fbFold T cfg st inp]
    · rw [ht, fbSearch_eq_fbFold T cfg st inp]

/-- Witness for C5 at the blocked, non-degraded scenario: no feasible
candidate exists and no beam sequence survives, so both controllers
command the grid fallback with flag false and NoFeasibleSolution. -/
theorem claim_C5_fallback_policy_witness :
    ((Controller.step trigAtZero cfgC5 initState inC5w).1.had_feasible_solution = false ∧
      (∃ c ∈ Controller.candList (Controller.mkCtx trigAtZero cfgC5 initState inC5w),
        (Controller.step trigAtZero cfgC5 initState inC5w).1.cmd.lift_target_m = c.lift ∧
        (Controller.step trigAtZero cfgC5 initState inC5w).1.cmd.tilt_target_rad = c.tilt ∧
        ∀ c' ∈ Controller.candList (Controller.mkCtx trigAtZero cfgC5 initState inC5w),
          c'.min_clear ≤ c.min_clear) ∧
      (isDegraded cfgC5 inC5w = false →
        (Controller.step trigAtZero cfgC5 initState inC5w).1.safety.code =
          SafetyCode.NoFeasibleSolution)) ∧
    ((ControllerMPC.step trigAtZero cfgC5 initState inC5w).1.cmd.lift_target_m =
        (Controller.fbFold (Controller.mkCtx trigAtZero cfgC5 initState inC5w)).lift ∧
      (ControllerMPC.step trigAtZero cfgC5 initState inC5w).1.cmd.tilt_target_rad =
        (Controller.fbFold (Controller.mkCtx trigAtZero cfgC5 initState inC5w)).tilt ∧
      (ControllerMPC.step trigAtZero cfgC5 initState inC5w).1.had_feasible_solution = false ∧
      (isDegraded cfgC5 inC5w = false →
        (ControllerMPC.step trigAtZero cfgC5 initState inC5w).1.safety.code =
          SafetyCode.NoFeasibleSolution)) :=
  ⟨(claim_C5_fallback_policy trigAtZero cfgC5 initState inC5w).2.1 (by decide),
    (claim_C5_fallback_policy trigAtZero cfgC5 initState inC5w).2.2 (by decide)⟩

/-! ## Beam-search invariants (shared helpers for C4) -/

theorem childOf_trace (B : BeamCtx) (k : ℕ) (node : SeqNode) (lr tr : ℚ) (child : SeqNode)
    (h : ControllerMPC.childOf B k node lr tr = some child) :
    ∃ ps, child.trace = node.trace ++ [ps] ∧ ControllerMPC.stateFeasible B ps = true := by
  simp only [ControllerMPC.childOf] at h
  split at h
  next h1 => exact Option.noConfusion h
  next h1 =>
    split at h
    next h2 =>
      split at h
      next h3 => exact Option.noConfusion h
      next h3 =>
        push_neg at h1 h3
        simp only [Option.some.injEq] at h
        subst h
        refine ⟨_, rfl, ?_⟩
        simp only [ControllerMPC.stateFeasible, if_pos h2, Bool.and_eq_true, decide_eq_true_eq]
        exact ⟨h3.1, h3.2⟩
    next h2 =>
      push_neg at h1
      simp only [Option.some.injEq] at h
      subst h
      refine ⟨_, rfl, ?_⟩
      simp only [ControllerMPC.stateFeasible, if_neg h2, Bool.and_eq_true, decide_eq_true_eq]
      exact ⟨h1.1, h1.2⟩

theorem mem_expandChildren (B : BeamCtx) (k : ℕ) (node n' : SeqNode)
    (h : n' ∈ ControllerMPC.expandChildren B k node) :
    ∃ lr tr, ControllerMPC.childOf B k node lr tr = some n' := by
  unfold ControllerMPC.expandChildren at h
  rw [List.mem_flatMap] at h
  obtain ⟨lr, _, h⟩ := h
  rw [List.mem_filterMap] at h
  obtain ⟨tr, _, h⟩ := h
  exact ⟨lr, tr, h⟩

theorem mem_insertByCost (n : SeqNode) (l : List SeqNode) (x : SeqNode)
    (h : x ∈ ControllerMPC.insertByCost n l) : x = n ∨ x ∈ l := by
  induction l with
  | nil =>
    simp only [ControllerMPC.insertByCost, List.mem_singleton] at h
    exact Or.inl h
  | cons m ms ih =>
    unfold ControllerMPC.insertByCost at h
    split_ifs at h
    · rcases List.mem_cons.mp h with rfl | h2
      · exact Or.inl rfl
      · exact Or.inr h2
    · rcases List.mem_cons.mp h with rfl | h2
      · exact Or.inr (List.mem_cons_self _ _)
      · rcases ih h2 with h3 | h3
        · exact Or.inl h3
        · exact Or.inr (List.mem_cons_of_mem _ h3)

theorem mem_sortByCost (l : List SeqNode) (x : SeqNode)
    (h : x ∈ ControllerMPC.sortByCost l) : x ∈ l := by
  induction l with
  | nil => simp [ControllerMPC.sortByCost] at h
  | cons m ms ih =>
    unfold ControllerMPC.sortByCost at h
    rw [List.foldr_cons] at h
    rcases mem_insertByCost _ _ _ h with rfl | h2
    · exact List.mem_cons_self _ _
    · exact List.mem_cons_of_mem _ (ih h2)

theorem mem_selectBeam (beam : ℕ) (l : List SeqNode) (x : SeqNode)
    (h : x ∈ ControllerMPC.selectBeam beam l) : x ∈ l :=
  mem_sortByCost l x (List.take_subset _ _ h)

theorem beamLoop_trace_feasible (B : BeamCtx) (fuel : ℕ) :
    ∀ (k : ℕ) (frontier : List SeqNode),
      (∀ n ∈ frontier, ∀ ps ∈ n.trace, ControllerMPC.stateFeasible B ps = true) →
      ∀ n ∈ ControllerMPC.beamLoop B fuel k frontier, ∀ ps ∈ n.trace,
        ControllerMPC.stateFeasible B ps = true := by
  induction fuel with
  | zero =>
    intro k frontier hinv
    simpa [ControllerMPC.beamLoop] using hinv
  | succ fuel ih =>
    intro k frontier hinv n hn ps hps
    rw [ControllerMPC.beamLoop] at hn
    by_cases hemp : (ControllerMPC.expandStep B k frontier).isEmpty
    · simp only [hemp, if_true] at hn
      exact hinv n hn ps hps
    · simp only [hemp, Bool.false_eq_true, if_false] at hn
      refine ih (k + 1) _ ?_ n hn ps hps
      intro n' hn' ps' hps'
      have hmem := mem_selectBeam B.beam _ _ hn'
      rw [ControllerMPC.expandStep, List.mem_flatMap] at hmem
      obtain ⟨node, hnode, hchild⟩ := hmem
      obtain ⟨lr, tr, hc⟩ := mem_expandChildren B k node n' hchild
      obtain ⟨ps0, htr, hfeas0⟩ := childOf_trace B k node lr tr n' hc
      rw [htr] at hps'
      rcases List.mem_append.mp hps' with hcase | hcase
      · exact hinv node hnode ps' hcase
      · rw [List.mem_singleton] at hcase
        subst hcase
        exact hfeas0

/-- C4: every candidate sequence retained in the MPC frontier has
nonnegative working clearances (with the spatial look-ahead combination
when configured) at EVERY predicted state it has passed — infeasible
expansions are pruned at the step where they occur; and when no expansion
of a step survives, the horizon loop truncates early, leaving the frontier
unchanged. -/
theorem claim_C4_pointwise_pruning :
    (∀ (T : TrigModel) (cfg : ControllerConfig) (inp : ControlInput) (st : CState),
      ∀ n ∈ ControllerMPC.mpcFrontier T cfg inp st, ∀ ps ∈ n.trace,
        ControllerMPC.stateFeasible (ControllerMPC.mkCtx T cfg inp) ps = true) ∧
    (∀ (B : BeamCtx) (fuel k : ℕ) (frontier : List SeqNode),
      ControllerMPC.expandStep B k frontier = [] →
      ControllerMPC.beamLoop B (fuel + 1) k frontier = frontier) := by
  constructor
  · intro T cfg inp st n hn ps hps
    refine beamLoop_trace_feasible (ControllerMPC.mkCtx T cfg inp) _ 0
      [ControllerMPC.rootNode inp st] ?_ n hn ps hps
    intro n' hn' ps' hps'
    rw [List.mem_singleton] at hn'
    subst hn'
    simp [ControllerMPC.rootNode] at hps'
  · intro B fuel k frontier h
    simp [ControllerMPC.beamLoop, h]

/-- Witness for C4: in the ample scenario the surviving node's single
predicted state is feasible; in the blocked scenario the first expansion
is empty and the loop truncates, returning the root frontier unchanged. -/
theorem claim_C4_pointwise_pruning_witness :
    ControllerMPC.stateFeasible (ControllerMPC.mkCtx trigAtZero cfgC4 inC4)
        ⟨0, mkRat 5 10, 0, 0⟩ = true ∧
    ControllerMPC.beamLoop (ControllerMPC.mkCtx trigAtZero cfgC4 inC4trunc) 1 0
        [ControllerMPC.rootNode inC4trunc initState] =
      [ControllerMPC.rootNode inC4trunc initState] :=
  ⟨claim_C4_pointwise_pruning.1 trigAtZero cfgC4 inC4 initState nodeC4 (by decide)
      ⟨0, mkRat 5 10, 0, 0⟩ (by decide),
    claim_C4_pointwise_pruning.2 (ControllerMPC.mkCtx trigAtZero cfgC4 inC4trunc) 0 0
      [ControllerMPC.rootNode inC4trunc initState] (by decide)⟩

/-- Witness for C10: with all four corners at (0,1), ceiling 2, floor 0,
zero margins, every tie fires. -/
theorem claim_C10_tie_breaking_witness :
    (computeClearances cornersTie envTie 0 0).worst_point =
        (computeClearances cornersTie envTie 0 0).bottom_worst_point ∧
    (computeClearances cornersTie envTie 0 0).top_worst_point = CornerId.RearTop ∧
    (computeClearances cornersTie envTie 0 0).bottom_worst_point = CornerId.RearBottom :=
  ⟨(claim_C10_tie_breaking cornersTie envTie 0 0).1 (by decide),
    (claim_C10_tie_breaking cornersTie envTie 0 0).2.1 (by decide),
    (claim_C10_tie_breaking cornersTie envTie 0 0).2.2 (by decide)⟩

end TLF
